import Mathlib

/-!
# PSU attribute decoding of `pddf_custom_psu.c` (Accton AS7816-64X)

A shallow embedding of
`platform/broadcom/sonic-platform-modules-accton/as7816-64x/modules/pddf_custom_psu.c`
and theorems about it.

Conventions of the embedding.

* A byte is a `Nat`; every store into a `char`/`u8` object reduces it modulo 256.
* A C `int` is an `Int`; `wrap32` is applied where the source computes in 32 bits.
* The I2C adapter and the device behind it are a parameter, `Bus`.  Its answers may
  depend on every request made so far, so the state threaded through the code is
  the chronological list of requests (`List Req`), oldest first.
* `struct pddf_psu_data` is a flat array of 49 bytes (`model_name` at 0,
  `serial_number` at 17, `model_opt` at 37, `fan_dir` at 45), so that a store which
  runs over the end of one member lands in the next one, as it does in C.  A store
  beyond the 49th byte leaves the object and is not represented.
* Automatic variables start with arbitrary contents, taken from a parameter
  `stack : Nat → Nat`.
-/

namespace PddfCustomPsu

/-! ## Machine integers -/

/-- The 32-bit pattern of a C `int`. -/
def toU32 (i : Int) : Nat := (i % 4294967296).toNat

/-- The C `int` that a 32-bit pattern stands for. -/
def toS32 (n : Nat) : Int :=
  if n % 4294967296 < 2147483648 then (n % 4294967296 : Nat) else (n % 4294967296 : Nat) - 4294967296

/-- Reduction of an integer result to the range of a 32-bit `int`. -/
def wrap32 (i : Int) : Int := toS32 (toU32 i)

/-- The 32-bit pattern of `~x`, for `x` an `int` given by its pattern. -/
def bnot32 (x : Nat) : Nat := 4294967295 - x % 4294967296

/-! ## Errno values and table sizes -/

def EIO : Int := 5
def ENODATA : Int := 61

def MAX_MODEL_NAME : Nat := 16
def MAX_SERIAL_NUMBER : Nat := 19
def MAX_MODEL_OPT : Nat := 7
def MAX_FAN_DIR : Nat := 3

/-! ## `two_complement_to_int` (source lines 109-115) -/

/-- Source: `static int two_complement_to_int(u16 data, u8 valid_bit, int mask)`.
`data` is converted to `u16` on entry, `data & mask` is computed on `int` and stored
in a `u16`, `~valid_data` is the complement of the promoted `int`.  The shift count
`valid_bit - 1` is taken in `Nat`; the source is undefined for `valid_bit = 0`. -/
def two_complement_to_int (data : Nat) (valid_bit : Nat) (mask : Int) : Int :=
  let valid_data : Nat := ((data % 65536) &&& toU32 mask) % 65536
  let is_negative : Bool := decide (valid_data >>> (valid_bit - 1) ≠ 0)
  if is_negative then wrap32 (-(wrap32 (toS32 (bnot32 valid_data &&& toU32 mask) + 1)))
  else (valid_data : Int)

/-! ## The bus

`i2c_smbus_read_i2c_block_data`, `i2c_smbus_read_byte_data` and
`i2c_smbus_read_word_data` belong to the kernel, not to this module: what they
return is a parameter of the embedding. -/

/-- One transfer requested from the adapter. -/
inductive Req
  | block (command : Nat) (length : Nat)
  | byte (command : Nat)
  | word (command : Nat)
  deriving DecidableEq

/-- Register addressed by a request. -/
def Req.command : Req → Nat
  | Req.block c _ => c
  | Req.byte c => c
  | Req.word c => c

/-- Outcome of one block transfer: either the transfer failed, the call returns
`-errno` and stores nothing, or it stores `bytes` in the caller's buffer and returns
their count. -/
inductive BlockResp
  | error (errno : Nat)
  | data (bytes : List Nat)

/-- Value returned by the kernel call for an answer of the bus: `-errno`, or the
count of the bytes stored. -/
def BlockResp.ret : BlockResp → Int
  | BlockResp.error errno => -(errno : Int)
  | BlockResp.data bytes => (bytes.length : Int)

/-- Adapter and device.  Each answer is a function of the requests made before it
and of the request itself.  `byte` and `word` give the `s32` returned by the kernel:
a negative errno or the value read. -/
structure Bus where
  block : List Req → Nat → Nat → BlockResp
  byte : List Req → Nat → Int
  word : List Req → Nat → Int

/-! ## Memory and C strings -/

/-- Store `bytes` in `buf` from index `off` on, each reduced to a `u8`. -/
def writeAt : List Nat → Nat → List Nat → List Nat
  | buf, _, [] => buf
  | buf, off, b :: bs => writeAt (buf.set off (b % 256)) (off + 1) bs

/-- Source: `memset(buf + off, c, n)`. -/
def memset (buf : List Nat) (off c n : Nat) : List Nat := writeAt buf off (List.replicate n c)

/-- Test used to find the end of a C string. -/
def nonNul (b : Nat) : Bool := decide (b ≠ 0)

/-- The C string that starts at `buf + off`: the bytes before the first NUL. -/
def cstrAt (buf : List Nat) (off : Nat) : List Nat := (buf.drop off).takeWhile nonNul

/-- Bytes of a string literal; its terminating NUL is left implicit. -/
def cstr (s : String) : List Nat := s.toList.map Char.toNat

/-- Source: `strncmp(a, b, n) == 0`.  A list that has run out reads as NUL. -/
def strncmp_eq : List Nat → List Nat → Nat → Bool
  | _, _, 0 => true
  | a, b, n + 1 =>
    if a.headD 0 ≠ b.headD 0 then false
    else if a.headD 0 = 0 then true
    else strncmp_eq a.tail b.tail n

/-- Bytes stored by `strncpy(dest, src, n)`: the string at `src` cut to `n` bytes and
padded with NUL. -/
def strncpy_bytes : List Nat → Nat → List Nat
  | _, 0 => []
  | [], n + 1 => List.replicate (n + 1) 0
  | c :: cs, n + 1 => if c = 0 then List.replicate (n + 1) 0 else c :: strncpy_bytes cs n

/-- Characters produced by the conversion `%d`. -/
def fmt_d (v : Int) : List Nat := (toString v).toList.map Char.toNat

/-- Value returned by a `show` handler: a negative errno with nothing stored in
`buf`, or the text stored in `buf` (the handler then returns its length). -/
inductive ShowResult
  | error (code : Int)
  | output (text : List Nat)
  deriving DecidableEq

/-! ## `struct pddf_psu_data` (source lines 67-72) -/

def off_model_name : Nat := 0
def off_serial_number : Nat := off_model_name + (MAX_MODEL_NAME + 1)
def off_model_opt : Nat := off_serial_number + (MAX_SERIAL_NUMBER + 1)
def off_fan_dir : Nat := off_model_opt + (MAX_MODEL_OPT + 1)
def sizeof_pddf_psu_data : Nat := off_fan_dir + (MAX_FAN_DIR + 1)

/-- The automatic `struct pddf_psu_data data` before any store. -/
def pddf_psu_data_init (stack : Nat → Nat) : List Nat :=
  (List.range sizeof_pddf_psu_data).map (fun i => stack i % 256)

/-- The automatic `u8 data_len` before any store. -/
def data_len_init (stack : Nat → Nat) : Nat := stack sizeof_pddf_psu_data % 256

/-- The automatic `char fan_dir[5]` of the fan-direction handler before any store. -/
def fan_dir_init (stack : Nat → Nat) : List Nat :=
  (List.range 5).map (fun i => stack (sizeof_pddf_psu_data + 1 + i) % 256)

/-! ## The model tables (source lines 27-65) -/

inductive psu_type
  | PSU_TYPE_AC_D850AB_5A
  | PSU_TYPE_AC_D850AB_5B
  | PSU_TYPE_AC_YM2851F
  | PSU_TYPE_DC_YM2851J
  | PSU_TYPE_DC_G1441_0850WNB
  deriving DecidableEq

structure model_name_info where
  type : psu_type
  offset : Nat
  length : Nat
  chk_length : Nat
  model_name : String

structure serial_number_info where
  type : psu_type
  offset : Nat
  length : Nat
  chk_length : Nat
  serial_number : String

def models : List model_name_info :=
  [ ⟨psu_type.PSU_TYPE_AC_D850AB_5A, 0x15, 10, 10, "D850AB-5 A"⟩,
    ⟨psu_type.PSU_TYPE_AC_D850AB_5B, 0x15, 10, 10, "D850AB-5 B"⟩,
    ⟨psu_type.PSU_TYPE_AC_YM2851F, 0x20, 13, 8, "YM-2851F"⟩,
    ⟨psu_type.PSU_TYPE_DC_YM2851J, 0x20, 13, 8, "YM-2851J"⟩,
    ⟨psu_type.PSU_TYPE_DC_G1441_0850WNB, 0x15, 13, 13, "G1441-0850WNB"⟩ ]

def serials : List serial_number_info :=
  [ ⟨psu_type.PSU_TYPE_AC_D850AB_5A, 0x2e, 11, 11, "D850AB-5 A"⟩,
    ⟨psu_type.PSU_TYPE_AC_D850AB_5B, 0x2e, 11, 11, "D850AB-5 B"⟩,
    ⟨psu_type.PSU_TYPE_AC_YM2851F, 0x35, 19, 19, "YM-2851F"⟩,
    ⟨psu_type.PSU_TYPE_DC_YM2851J, 0x35, 19, 19, "YM-2851J"⟩,
    ⟨psu_type.PSU_TYPE_DC_G1441_0850WNB, 0x3d, 19, 19, "G1441-0850WNB"⟩ ]

/-! ## Transport (source lines 75-169) -/

/-- The kernel call `i2c_smbus_read_i2c_block_data(client, command, length, values)`
with `values = buf + off`: the answer of the bus is returned, its bytes are stored,
the request is recorded with `length` as the caller wrote it. -/
def i2c_smbus_read_i2c_block_data (bus : Bus) (tr : List Req) (command length : Nat)
    (buf : List Nat) (off : Nat) : Int × List Nat × List Req :=
  match bus.block tr command length with
  | BlockResp.error errno => (-(errno : Int), buf, tr ++ [Req.block command length])
  | BlockResp.data bytes =>
    ((bytes.length : Int), writeAt buf off bytes, tr ++ [Req.block command length])

/-- The `while (retry_count)` loop of `pddf_psu_read_block`; the first argument is
`retry_count`, the second the current `result`. -/
def pddf_psu_read_block_loop (bus : Bus) (command : Nat) (off : Nat) (data_len : Nat) :
    Nat → Int → List Nat → List Req → Int × List Nat × List Req
  | 0, result, buf, tr => (result, buf, tr)
  | retry_count + 1, _, buf, tr =>
    match i2c_smbus_read_i2c_block_data bus tr command data_len buf off with
    | (result, buf, tr) =>
      if result < 0 then pddf_psu_read_block_loop bus command off data_len retry_count result buf tr
      else if result ≠ (data_len : Int) then
        pddf_psu_read_block_loop bus command off data_len retry_count (- EIO) buf tr
      else (0, buf, tr)

/-- Source: `pddf_psu_read_block(client, command, data, data_len)` with
`data = buf + off`.  Returns the status, the buffer and the requests made. -/
def pddf_psu_read_block (bus : Bus) (tr : List Req) (command : Nat) (buf : List Nat)
    (off : Nat) (data_len : Nat) : Int × List Nat × List Req :=
  pddf_psu_read_block_loop bus command off data_len 10 0 buf tr

/-- Source: `pddf_psu_read_byte(client, reg)`. -/
def pddf_psu_read_byte (bus : Bus) (tr : List Req) (reg : Nat) : Int × List Req :=
  (bus.byte tr reg, tr ++ [Req.byte reg])

/-- The `while (retry)` loop of `psu_get_vout_mode`; `status` is a `u8`, so the value
returned by the kernel is reduced modulo 256 before it is compared with 0. -/
def psu_get_vout_mode_loop (bus : Bus) : Nat → Nat → List Req → Nat × List Req
  | 0, status, tr => (status, tr)
  | retry + 1, _, tr =>
    let status : Nat := (bus.byte tr 0x20 % 256).toNat
    if (status : Int) < 0 then psu_get_vout_mode_loop bus retry status (tr ++ [Req.byte 0x20])
    else (status, tr ++ [Req.byte 0x20])

/-- Source: `psu_get_vout_mode(client)`. -/
def psu_get_vout_mode (bus : Bus) (tr : List Req) : Nat × List Req :=
  match psu_get_vout_mode_loop bus 10 0 tr with
  | (status, tr) => if (status : Int) < 0 then (0, tr) else (status, tr)

/-- The `while (retry)` loop of `psu_get_v_out`; `status` is a `u16`. -/
def psu_get_v_out_loop (bus : Bus) : Nat → Nat → List Req → Nat × List Req
  | 0, status, tr => (status, tr)
  | retry + 1, _, tr =>
    let status : Nat := (bus.word tr 0x8b % 65536).toNat
    if (status : Int) < 0 then psu_get_v_out_loop bus retry status (tr ++ [Req.word 0x8b])
    else (status, tr ++ [Req.word 0x8b])

/-- Source: `psu_get_v_out(client)`. -/
def psu_get_v_out (bus : Bus) (tr : List Req) : Nat × List Req :=
  match psu_get_v_out_loop bus 10 0 tr with
  | (status, tr) => if (status : Int) < 0 then (0, tr) else (status, tr)

/-! ## Model-name framing (source lines 182-206, again at 297-321 and 362-386) -/

/-- The text shared by the voltage, model-name and fan-direction handlers: clear
`data.model_name`, read one byte at 0x9a into `data_len`, read `data_len + 1` bytes
at 0x9a into `data.model_name`, store the terminator.  Returns the status (negative
where the handler returns it), `data_len`, `data` and the requests made. -/
def read_model_name (bus : Bus) (tr : List Req) (stack : Nat → Nat) :
    Int × Nat × List Nat × List Req :=
  let data := memset (pddf_psu_data_init stack) off_model_name 0 (MAX_MODEL_NAME + 1)
  match pddf_psu_read_block bus tr 0x9a [data_len_init stack] 0 1 with
  | (status, dl, tr) =>
    if status < 0 then (status, dl.headD 0, data, tr)
    else
      let data_len := dl.headD 0
      match pddf_psu_read_block bus tr 0x9a data off_model_name (data_len + 1) with
      | (status, data, tr) =>
        if status < 0 then (status, data_len, data, tr)
        else if data_len + 1 ≥ (MAX_MODEL_NAME + 1) - 1 then
          (status, data_len, data.set (off_model_name + ((MAX_MODEL_NAME + 1) - 1)) 0, tr)
        else (status, data_len, data.set (off_model_name + (data_len + 1)) 0, tr)

/-! ## Voltage (source lines 171-238) -/

/-- Source lines 209-232 without the read of READ_VOUT: the choice between linear16
and linear11 and the values given to `exponent` and `mantissa`. -/
def v_out_linear (bus : Bus) (tr : List Req) (data : List Nat) (value : Nat) :
    Int × Int × List Req :=
  if strncmp_eq (cstr "DPS-850AB-5 B") (data.drop (off_model_name + 1))
        (cstr "DPS-850AB-5 B").length ||
      strncmp_eq (cstr "YM-2851J") (data.drop (off_model_name + 1)) (cstr "YM-2851J").length ||
      strncmp_eq (cstr "G1441-0850WNB") (data.drop (off_model_name + 1))
        (cstr "G1441-0850WNB").length then
    match psu_get_vout_mode bus tr with
    | (vout_mode, tr) =>
      if vout_mode >>> 5 = 0 then
        (two_complement_to_int (vout_mode &&& 0x1f) 5 0x1f, (value : Int), tr)
      else (0, (value : Int), tr)
  else
    (two_complement_to_int (value >>> 11) 5 0x1f,
      two_complement_to_int (value &&& 0x7ff) 11 0x7ff, tr)

/-- Source lines 234-237: the text printed for `exponent` and `mantissa`, with
`multiplier = 1000`; products and shifts are reduced to 32 bits, the division
truncates toward zero. -/
def v_out_format (exponent mantissa : Int) : List Nat :=
  if exponent ≥ 0 then
    fmt_d (wrap32 (wrap32 (mantissa * 2 ^ exponent.toNat) * 1000)) ++ cstr "\n"
  else
    fmt_d (Int.tdiv (wrap32 (mantissa * 1000)) (wrap32 (2 ^ (-exponent).toNat))) ++ cstr "\n"

/-- Source: `pddf_show_custom_psu_v_out(dev, da, buf)`. -/
def pddf_show_custom_psu_v_out (bus : Bus) (tr : List Req) (stack : Nat → Nat) :
    ShowResult × List Req :=
  match read_model_name bus tr stack with
  | (status, _, data, tr) =>
    if status < 0 then (ShowResult.error status, tr)
    else
      match psu_get_v_out bus tr with
      | (value, tr) =>
        match v_out_linear bus tr data value with
        | (exponent, mantissa, tr) => (ShowResult.output (v_out_format exponent mantissa), tr)

/-! ## Serial number (source lines 240-288) -/

/-- Body of the `for` loop of `pddf_get_custom_psu_serial_num` over the entries that
remain.  The first component is `some r` when the loop returned `r`, `none` when it
ran to its end. -/
def serial_num_loop (bus : Bus) :
    List (model_name_info × serial_number_info) → List Nat → List Req →
      Option ShowResult × List Nat × List Req
  | [], data, tr => (none, data, tr)
  | (m, s) :: rest, data, tr =>
    let data := memset data off_serial_number 0 (MAX_SERIAL_NUMBER + 1)
    match pddf_psu_read_block bus tr m.offset data off_model_name m.length with
    | (status, data, tr) =>
      if status < 0 then (some (ShowResult.error status), data.set off_model_name 0, tr)
      else
        let data := data.set (off_model_name + m.length) 0
        if strncmp_eq (data.drop off_model_name) (cstr m.model_name) m.chk_length then
          match pddf_psu_read_block bus tr s.offset data off_serial_number s.length with
          | (status, data, tr) =>
            if status < 0 then
              (some (ShowResult.error status), data.set off_serial_number 0, tr)
            else
              let data := data.set (off_serial_number + s.length) 0
              (some (ShowResult.output (cstrAt data off_serial_number ++ cstr "\n")), data, tr)
        else serial_num_loop bus rest (data.set off_serial_number 0) tr

/-- Source: `pddf_get_custom_psu_serial_num(dev, da, buf)`; entry `i` of `models` is
used with entry `i` of `serials`. -/
def pddf_get_custom_psu_serial_num (bus : Bus) (tr : List Req) (stack : Nat → Nat) :
    ShowResult × List Req :=
  match serial_num_loop bus (models.zip serials) (pddf_psu_data_init stack) tr with
  | (some r, _, tr) => (r, tr)
  | (none, _, tr) => (ShowResult.error (-ENODATA), tr)

/-! ## Model name (source lines 290-353) -/

/-- Source: `pddf_get_custom_psu_model_name(dev, da, buf)`. -/
def pddf_get_custom_psu_model_name (bus : Bus) (tr : List Req) (stack : Nat → Nat) :
    ShowResult × List Req :=
  match read_model_name bus tr stack with
  | (status, data_len, data, tr) =>
    if status < 0 then (ShowResult.error status, tr)
    else if strncmp_eq (cstr "YM-2851F") (data.drop (off_model_name + 1))
          (cstr "YM-2851F").length ||
        strncmp_eq (cstr "YM-2851J") (data.drop (off_model_name + 1))
          (cstr "YM-2851J").length then
      match pddf_psu_read_block bus tr 0xd0 [data_len] 0 1 with
      | (status, dl, tr) =>
        if status < 0 then (ShowResult.error status, tr)
        else
          let data_len := dl.headD 0
          match pddf_psu_read_block bus tr 0xd0 data off_model_opt (data_len + 1) with
          | (status, data, tr) =>
            if status < 0 then (ShowResult.error status, tr)
            else
              let data := data.set (off_model_opt + (data_len + 1)) 0
              (ShowResult.output
                (cstrAt data (off_model_name + 1) ++ cstrAt data (off_model_opt + 1) ++ cstr "\n"),
                tr)
    else (ShowResult.output (cstrAt data (off_model_name + 1) ++ cstr "\n"), tr)

/-! ## Fan direction (source lines 355-430) -/

/-- Source: `pddf_get_custom_psu_fan_direction(dev, da, buf)`.  After the test
`status < 0` the status byte is non-negative and its bits are taken in `Nat`. -/
def pddf_get_custom_psu_fan_direction (bus : Bus) (tr : List Req) (stack : Nat → Nat) :
    ShowResult × List Req :=
  match read_model_name bus tr stack with
  | (status, _, data, tr) =>
    if status < 0 then (ShowResult.error status, tr)
    else
      let command := 0xC3
      let data := memset data off_fan_dir 0 (MAX_FAN_DIR + 1)
      if strncmp_eq (cstr "G1441-0850WNB") (data.drop (off_model_name + 1))
          (cstr "G1441-0850WNB").length then
        let data := writeAt data off_fan_dir (cstr "F2B")
        (ShowResult.output (cstrAt data off_fan_dir ++ cstr "\n"), tr)
      else
        match pddf_psu_read_byte bus tr command with
        | (status, tr) =>
          if status < 0 then (ShowResult.error status, tr)
          else
            let B2F_flag := 0x01
            let F2B_flag := 0x02
            if (status.toNat >>> 3) &&& B2F_flag ≠ 0 then
              let data := writeAt data off_fan_dir (cstr "B2F")
              (ShowResult.output (cstrAt data off_fan_dir ++ cstr "\n"), tr)
            else if (status.toNat >>> 3) &&& F2B_flag ≠ 0 then
              let data := writeAt data off_fan_dir (cstr "F2B")
              (ShowResult.output (cstrAt data off_fan_dir ++ cstr "\n"), tr)
            else
              match pddf_psu_read_block bus tr command (fan_dir_init stack) 0 (5 - 1) with
              | (status, fan_dir, tr) =>
                if status = 0 then
                  let data := writeAt data off_fan_dir
                    (strncpy_bytes (fan_dir.drop 1) ((MAX_FAN_DIR + 1) - 1))
                  let data := data.set (off_fan_dir + ((MAX_FAN_DIR + 1) - 1)) 0
                  (ShowResult.output (cstrAt data off_fan_dir ++ cstr "\n"), tr)
                else (ShowResult.output (cstrAt data off_fan_dir ++ cstr "\n"), tr)

/-! ## Conditions on a device used in the statements about the serial number -/

/-- Whenever the model field of entry `m` is read into `data.model_name`, the read
succeeds and the bytes that are then compared differ from the label of `m`. -/
def ProbeMisses (bus : Bus) (m : model_name_info) : Prop :=
  ∀ (t : List Req) (buf : List Nat), buf.length = sizeof_pddf_psu_data →
    ¬ (pddf_psu_read_block bus t m.offset buf off_model_name m.length).1 < 0 ∧
    (pddf_psu_read_block bus t m.offset buf off_model_name m.length).2.1.take m.chk_length ≠
      cstr m.model_name

/-- Whenever the model field of entry `m` is read into `data.model_name`, the read
succeeds and the bytes that are then compared are the label of `m`. -/
def ProbeHits (bus : Bus) (m : model_name_info) : Prop :=
  ∀ (t : List Req) (buf : List Nat), buf.length = sizeof_pddf_psu_data →
    ¬ (pddf_psu_read_block bus t m.offset buf off_model_name m.length).1 < 0 ∧
    (pddf_psu_read_block bus t m.offset buf off_model_name m.length).2.1.take m.chk_length =
      cstr m.model_name

/-- Whenever the serial field of entry `s` is read into `data.serial_number`, the
read succeeds and the bytes read are `sbytes`. -/
def SerialReads (bus : Bus) (s : serial_number_info) (sbytes : List Nat) : Prop :=
  ∀ (t : List Req) (buf : List Nat), buf.length = sizeof_pddf_psu_data →
    ¬ (pddf_psu_read_block bus t s.offset buf off_serial_number s.length).1 < 0 ∧
    ((pddf_psu_read_block bus t s.offset buf off_serial_number s.length).2.1.drop
      off_serial_number).take s.length = sbytes

/-- The label of a table entry is what `strncmp` compares over `chk_length` bytes:
it has `chk_length` bytes, none of them NUL, and no more than were read. -/
def LabelChecked (m : model_name_info) : Prop :=
  m.chk_length = (cstr m.model_name).length ∧ m.chk_length ≤ m.length ∧
    ∀ b ∈ cstr m.model_name, b ≠ 0

/-! ## Devices used to instantiate the theorems -/

/-- A device whose registers hold fixed contents: a block read of `n` bytes at `c`
returns the first `n` bytes of `regs c`, a byte read `b c`, a word read `w c`. -/
def regBus (regs : Nat → List Nat) (b : Nat → Int) (w : Nat → Int) : Bus where
  block := fun _ c n => BlockResp.data ((regs c).take n)
  byte := fun _ c => b c
  word := fun _ c => w c

/-- Stack contents used in the instances. -/
def stackAA : Nat → Nat := fun _ => 0xAA

/-- A supply that reports the model name "HELLO" and the VOUT word 0xF801. -/
def devHello : Bus :=
  regBus (fun c => if c = 0x9a then 5 :: cstr "HELLO" else []) (fun _ => 0x10) (fun _ => 0xF801)

/-- A supply that reports the model name "G1441-0850WNB", VOUT_MODE 0x17 and the VOUT
word 0x1800. -/
def devG1441 : Bus :=
  regBus (fun c => if c = 0x9a then 13 :: cstr "G1441-0850WNB" else cstr "BAD!")
    (fun c => if c = 0x20 then 0x17 else 0x08) (fun _ => 0x1800)

/-- A supply of the YM-2851F kind: model field at 0x20, serial field at 0x35. -/
def devYM : Bus :=
  regBus (fun c => if c = 0x20 then cstr "YM-2851F-0123" else
      if c = 0x35 then cstr "SN0123456789ABCDEFG" else cstr "ZZZZZZZZZZZZZZZZZZZ")
    (fun _ => 0) (fun _ => 0)

/-- A supply whose identity fields hold no known label. -/
def devUnknown : Bus := regBus (fun _ => cstr "ZZZZZZZZZZZZZZZZZZZ") (fun _ => 0) (fun _ => 0)

/-- A bus that answers its first transfer with bytes 'A' and fails every later one
with errno 5. -/
def devFlaky : Bus where
  block := fun t _ n => if t.length < 1 then BlockResp.data (List.replicate n 0x41)
    else BlockResp.error 5
  byte := fun _ _ => -5
  word := fun _ _ => -5

/-- A supply named "HELLO" whose register 0xC3 reads `b` as a byte and
`[4,'A','B','C']` as a block. -/
def devFan (b : Int) : Bus :=
  regBus (fun c => if c = 0x9a then 5 :: cstr "HELLO" else 4 :: cstr "ABC") (fun _ => b)
    (fun _ => 0)

/-- A supply of the YM-2851F kind whose model-name register 0x9a holds
`[8,'Y','M','-','2','8','5','1','F']` and whose option register 0xd0 holds `opt`. -/
def devYMopt (opt : List Nat) : Bus :=
  regBus (fun c => if c = 0x9a then 8 :: cstr "YM-2851F" else opt) (fun _ => 0) (fun _ => 0)

/-- A supply that reports a model name of 20 characters. -/
def devLong : Bus :=
  regBus (fun c => if c = 0x9a then 20 :: cstr "ABCDEFGHIJKLMNOPQRST" else []) (fun _ => 0)
    (fun _ => 0)

/-- A supply named "HELLO" whose VOUT word is `w`. -/
def devWord (w : Int) : Bus :=
  regBus (fun c => if c = 0x9a then 5 :: cstr "HELLO" else []) (fun _ => 0) (fun _ => w)

/-- A bus whose first byte or word read fails with errno 5 and whose later reads
return 0x17 (byte) and 0x1234 (word). -/
def devRetry : Bus where
  block := fun _ _ n => BlockResp.data (List.replicate n 0x41)
  byte := fun t _ => if t.length < 1 then -5 else 0x17
  word := fun t _ => if t.length < 1 then -5 else 0x1234

/-- A supply named "HELLO" whose status byte at 0xC3 is 0 and whose block reads at
any register other than 0x9a fail with errno 5. -/
def devFanFail : Bus where
  block := fun _ c n => if c = 0x9a then BlockResp.data ((5 :: cstr "HELLO").take n)
    else BlockResp.error 5
  byte := fun _ _ => 0
  word := fun _ _ => 0

/-- A bus whose block transfers fail with errno 5 nine times and succeed from the
tenth on. -/
def devNinth : Bus where
  block := fun t _ n => if t.length < 9 then BlockResp.error 5
    else BlockResp.data (List.replicate n 0x41)
  byte := fun _ _ => 0
  word := fun _ _ => 0

/-! # Theorems -/

/-! ## Two's complement -/

theorem toS32_of_lt (n : Nat) (h : n < 2147483648) : toS32 n = n := by
  unfold toS32
  have h1 : n % 4294967296 = n := Nat.mod_eq_of_lt (by omega)
  rw [h1, if_pos h]

theorem wrap32_of_range (i : Int) (h1 : -2147483648 ≤ i) (h2 : i < 2147483648) :
    wrap32 i = i := by
  unfold wrap32 toS32 toU32
  split_ifs <;> omega

theorem wrap_neg (x : Nat) (hx : x ≤ 65536) :
    wrap32 (-(wrap32 (toS32 x + 1))) = -((x : Int) + 1) := by
  rw [toS32_of_lt x (by omega), wrap32_of_range ((x : Int) + 1) (by omega) (by omega),
    wrap32_of_range _ (by omega) (by omega)]

theorem bnot_and (n v : Nat) (hn : n ≤ 16) (hv : v < 2 ^ n) :
    bnot32 v &&& (2 ^ n - 1) = 2 ^ n - 1 - v := by
  rw [Nat.and_pow_two_sub_one_eq_mod]
  unfold bnot32
  interval_cases n <;> norm_num at hv ⊢ <;> omega

theorem toU32_mask (n : Nat) (hn : n ≤ 16) : toU32 ((2 : Int) ^ n - 1) = 2 ^ n - 1 := by
  have h1 : (1 : Nat) ≤ 2 ^ n := Nat.one_le_two_pow
  have h2 : (2 : Nat) ^ n ≤ 2 ^ 16 := Nat.pow_le_pow_right (by norm_num) hn
  have h3 : ((2 : Int) ^ n - 1) = ((2 ^ n - 1 : Nat) : Int) := by
    rw [Nat.cast_sub h1]; simp
  rw [h3]
  unfold toU32
  norm_num at h2
  omega

theorem sign_bit_shift (n v : Nat) (hn1 : 1 ≤ n) (hv : v < 2 ^ n) :
    decide (v >>> (n - 1) ≠ 0) = v.testBit (n - 1) := by
  rw [Nat.testBit_to_div_mod, Nat.shiftRight_eq_div_pow]
  have hp : 2 ^ n = 2 ^ (n - 1) * 2 := by
    rw [← Nat.pow_succ]; congr 1; omega
  have hlt : v / 2 ^ (n - 1) < 2 := by
    rw [Nat.div_lt_iff_lt_mul (Nat.two_pow_pos _)]; omega
  have h01 : v / 2 ^ (n - 1) = 0 ∨ v / 2 ^ (n - 1) = 1 :=
    Nat.le_one_iff_eq_zero_or_eq_one.mp (Nat.le_of_lt_succ hlt)
  rcases h01 with h | h <;> simp [h]

theorem two_complement_to_int_eq (n data : Nat) (hn1 : 1 ≤ n) (hn : n ≤ 16)
    (hdata : data < 65536) :
    two_complement_to_int data n (2 ^ n - 1) =
      if (data &&& (2 ^ n - 1)).testBit (n - 1) then
        -(((bnot32 (data &&& (2 ^ n - 1)) &&& (2 ^ n - 1) : Nat) : Int) + 1)
      else ((data &&& (2 ^ n - 1) : Nat) : Int) := by
  have h2 : (2 : Nat) ^ n ≤ 65536 := by
    have := Nat.pow_le_pow_right (by norm_num : 0 < 2) hn
    norm_num at this; exact this
  have hv : data &&& (2 ^ n - 1) < 2 ^ n := by
    rw [Nat.and_pow_two_sub_one_eq_mod]; exact Nat.mod_lt _ (Nat.two_pow_pos n)
  unfold two_complement_to_int
  simp only [toU32_mask n hn, Nat.mod_eq_of_lt hdata]
  rw [Nat.mod_eq_of_lt (by omega : data &&& (2 ^ n - 1) < 65536), sign_bit_shift n _ hn1 hv]
  have hb := bnot_and n _ hn hv
  rw [hb, wrap_neg _ (by omega)]

/-- C1. `two_complement_to_int` is the n-bit two's-complement decode: for a width
`n` in 1..16, `mask = 2^n - 1` and a 16-bit `data`, with `v = data & mask`, the
result is `v` (non-negative) when bit `n-1` of `v` is clear, and is `v - 2^n`, which
is negative and equals `-((~v & mask) + 1)`, when bit `n-1` of `v` is set. -/
theorem two_complement_to_int_reference (n data : Nat) (hn1 : 1 ≤ n) (hn : n ≤ 16)
    (hdata : data < 65536) :
    (((data &&& (2 ^ n - 1)).testBit (n - 1) = false →
        two_complement_to_int data n (2 ^ n - 1) = ((data &&& (2 ^ n - 1) : Nat) : Int) ∧
        0 ≤ two_complement_to_int data n (2 ^ n - 1)) ∧
     ((data &&& (2 ^ n - 1)).testBit (n - 1) = true →
        two_complement_to_int data n (2 ^ n - 1) = ((data &&& (2 ^ n - 1) : Nat) : Int) - 2 ^ n ∧
        two_complement_to_int data n (2 ^ n - 1) < 0 ∧
        two_complement_to_int data n (2 ^ n - 1) =
          -(((bnot32 (data &&& (2 ^ n - 1)) &&& (2 ^ n - 1) : Nat) : Int) + 1))) := by
  have hv : data &&& (2 ^ n - 1) < 2 ^ n := by
    rw [Nat.and_pow_two_sub_one_eq_mod]; exact Nat.mod_lt _ (Nat.two_pow_pos n)
  have hb := bnot_and n _ hn hv
  have hcast : (((2 : Nat) ^ n : Nat) : Int) = (2 : Int) ^ n := by push_cast; rfl
  rw [two_complement_to_int_eq n data hn1 hn hdata]
  constructor
  · intro h
    rw [h]
    simp only [Bool.false_eq_true, if_false]
    exact ⟨trivial, Int.natCast_nonneg _⟩
  · intro h
    rw [h, hb]
    simp only [if_true]
    refine ⟨?_, ?_, trivial⟩ <;> omega

theorem two_complement_to_int_reference_witness :
    two_complement_to_int 0x1f 5 (2 ^ 5 - 1) = ((0x1f &&& (2 ^ 5 - 1) : Nat) : Int) - 2 ^ 5 ∧
      two_complement_to_int 0x0f 5 (2 ^ 5 - 1) = ((0x0f &&& (2 ^ 5 - 1) : Nat) : Int) :=
  ⟨((two_complement_to_int_reference 5 0x1f (by decide) (by decide) (by decide)).2
      (by decide)).1,
    ((two_complement_to_int_reference 5 0x0f (by decide) (by decide) (by decide)).1
      (by decide)).1⟩

/-! ## Lists as memory -/

theorem writeAt_length (bytes : List Nat) (buf : List Nat) (off : Nat) :
    (writeAt buf off bytes).length = buf.length := by
  induction bytes generalizing buf off with
  | nil => rfl
  | cons b bs ih => simp [writeAt, ih]

theorem nonNul_iff (b : Nat) : nonNul b = true ↔ b ≠ 0 := by
  simp [nonNul]

theorem strncmp_eq_comm (n : Nat) (a b : List Nat) : strncmp_eq a b n = strncmp_eq b a n := by
  induction n generalizing a b with
  | zero => simp [strncmp_eq]
  | succ n ih =>
    simp only [strncmp_eq]
    by_cases h : a.headD 0 = b.headD 0
    · rw [ih a.tail b.tail, h]
    · have h2 : b.headD 0 ≠ a.headD 0 := fun e => h e.symm
      rw [if_pos h, if_pos h2]

theorem strncmp_eq_iff_starts (lit : List Nat) (hlit : ∀ b ∈ lit, b ≠ 0) (mem : List Nat) :
    strncmp_eq lit mem lit.length = true ↔ lit <+: mem.takeWhile nonNul := by
  induction lit generalizing mem with
  | nil => simp [strncmp_eq]
  | cons c cs ih =>
    have hc : c ≠ 0 := hlit c (List.mem_cons_self _ _)
    have hcs : ∀ b ∈ cs, b ≠ 0 := fun b hb => hlit b (List.mem_cons_of_mem _ hb)
    cases mem with
    | nil => simp [strncmp_eq, hc]
    | cons d ds =>
      simp only [List.length_cons, strncmp_eq, List.headD_cons, List.tail_cons]
      by_cases hcd : c = d
      · subst hcd
        have hn : nonNul c = true := (nonNul_iff c).2 hc
        simp [hc, ih hcs ds, List.takeWhile_cons, hn, List.cons_prefix_cons]
      · simp only [ne_eq, hcd, not_false_eq_true, if_true]
        constructor
        · intro h; cases h
        · intro h
          by_cases hd : nonNul d = true
          · rw [List.takeWhile_cons, if_pos hd, List.cons_prefix_cons] at h
            exact absurd h.1 hcd
          · rw [List.takeWhile_cons, if_neg hd] at h
            simp at h

theorem take_succ_set_self (l : List Nat) (n a : Nat) (h : n < l.length) :
    (l.set n a).take (n + 1) = l.take n ++ [a] := by
  induction l generalizing n with
  | nil => simp at h
  | cons x xs ih =>
    cases n with
    | zero => simp
    | succ n =>
      simp only [List.length_cons, Nat.add_lt_add_iff_right] at h
      simp [ih n h]

/-- A store that fits in the buffer replaces exactly the bytes it covers. -/
theorem writeAt_eq (bytes : List Nat) (buf : List Nat) (off : Nat)
    (h : off + bytes.length ≤ buf.length) :
    writeAt buf off bytes =
      buf.take off ++ bytes.map (fun b => b % 256) ++ buf.drop (off + bytes.length) := by
  induction bytes generalizing buf off with
  | nil => simp [writeAt]
  | cons b bs ih =>
    simp only [List.length_cons] at h
    rw [writeAt, ih (buf.set off (b % 256)) (off + 1) (by rw [List.length_set]; omega),
      take_succ_set_self buf off _ (by omega), List.drop_set_of_lt _ _ (by omega)]
    simp only [List.map_cons, List.length_cons, List.append_assoc, List.singleton_append]
    congr 3
    omega

theorem regBus_read_block (regs : Nat → List Nat) (b w : Nat → Int) (t : List Req)
    (c : Nat) (buf : List Nat) (off n : Nat) (h : n ≤ (regs c).length) :
    pddf_psu_read_block (regBus regs b w) t c buf off n =
      (0, writeAt buf off ((regs c).take n), t ++ [Req.block c n]) := by
  have hl : ((regs c).take n).length = n := by rw [List.length_take]; omega
  simp [pddf_psu_read_block, pddf_psu_read_block_loop, i2c_smbus_read_i2c_block_data, regBus, hl]

/-! ## Facts about memory and the block read -/

theorem takeWhile_append_nul (a r : List Nat) :
    (a ++ 0 :: r).takeWhile nonNul = a.takeWhile nonNul := by
  induction a with
  | nil => simp [nonNul]
  | cons x xs ih =>
    by_cases hx : nonNul x = true
    · simp [List.takeWhile_cons, hx, ih]
    · simp [List.takeWhile_cons, hx]

/-- The string read at `buf + off` once a NUL has been stored at `buf[off + k]`: the
`k` bytes before it, cut at their first NUL. -/
theorem cstrAt_set_nul (buf : List Nat) (off k : Nat) (hlen : off + k < buf.length) :
    cstrAt (buf.set (off + k) 0) off = ((buf.drop off).take k).takeWhile nonNul := by
  unfold cstrAt
  rw [← List.set_drop, List.set_eq_take_append_cons_drop,
    if_pos (by rw [List.length_drop]; omega), takeWhile_append_nul]

theorem takeWhile_nonNul_of_all (s : List Nat) (hs : ∀ c ∈ s, c ≠ 0) :
    s.takeWhile nonNul = s := by
  rw [List.takeWhile_eq_self_iff]
  intro c hc
  exact (nonNul_iff c).2 (hs c hc)

theorem i2c_block_length (bus : Bus) (tr : List Req) (command len : Nat) (buf : List Nat)
    (off : Nat) : (i2c_smbus_read_i2c_block_data bus tr command len buf off).2.1.length = buf.length := by
  unfold i2c_smbus_read_i2c_block_data
  cases bus.block tr command len with
  | error e => rfl
  | data bytes => exact writeAt_length _ _ _

theorem i2c_block_trace (bus : Bus) (tr : List Req) (command len : Nat) (buf : List Nat)
    (off : Nat) :
    (i2c_smbus_read_i2c_block_data bus tr command len buf off).2.2 =
      tr ++ [Req.block command len] := by
  unfold i2c_smbus_read_i2c_block_data
  cases bus.block tr command len <;> rfl

theorem read_block_loop_length (bus : Bus) (command off data_len : Nat) (fuel : Nat)
    (result : Int) (buf : List Nat) (tr : List Req) :
    (pddf_psu_read_block_loop bus command off data_len fuel result buf tr).2.1.length =
      buf.length := by
  induction fuel generalizing result buf tr with
  | zero => rfl
  | succ k ih =>
    unfold pddf_psu_read_block_loop
    have hl := i2c_block_length bus tr command data_len buf off
    rcases hcall : i2c_smbus_read_i2c_block_data bus tr command data_len buf off with ⟨r, b, t⟩
    rw [hcall] at hl
    simp only at hl ⊢
    split_ifs
    · rw [ih, hl]
    · rw [ih, hl]
    · exact hl

theorem read_block_length (bus : Bus) (tr : List Req) (command : Nat) (buf : List Nat)
    (off data_len : Nat) :
    (pddf_psu_read_block bus tr command buf off data_len).2.1.length = buf.length :=
  read_block_loop_length bus command off data_len 10 0 buf tr

theorem read_block_loop_trace (bus : Bus) (command off data_len : Nat) (fuel : Nat)
    (result : Int) (buf : List Nat) (tr : List Req) :
    ∃ k, (0 < fuel → 1 ≤ k) ∧ k ≤ fuel ∧
      (pddf_psu_read_block_loop bus command off data_len fuel result buf tr).2.2 =
        tr ++ List.replicate k (Req.block command data_len) := by
  induction fuel generalizing result buf tr with
  | zero => exact ⟨0, by omega, le_refl 0, by simp [pddf_psu_read_block_loop]⟩
  | succ k ih =>
    unfold pddf_psu_read_block_loop
    have ht := i2c_block_trace bus tr command data_len buf off
    rcases hcall : i2c_smbus_read_i2c_block_data bus tr command data_len buf off with ⟨r, b, t⟩
    rw [hcall] at ht
    simp only at ht ⊢
    subst ht
    split_ifs
    · obtain ⟨j, _, hjk, hj⟩ := ih r b (tr ++ [Req.block command data_len])
      exact ⟨j + 1, by omega, by omega,
        by rw [hj, List.append_assoc, List.replicate_succ]; rfl⟩
    · obtain ⟨j, _, hjk, hj⟩ := ih (- EIO) b (tr ++ [Req.block command data_len])
      exact ⟨j + 1, by omega, by omega,
        by rw [hj, List.append_assoc, List.replicate_succ]; rfl⟩
    · exact ⟨1, by omega, by omega, rfl⟩

/-- A block read makes between one and ten requests, all for its own register and
length. -/
theorem read_block_trace_count (bus : Bus) (tr : List Req) (command : Nat) (buf : List Nat)
    (off data_len : Nat) :
    ∃ k, 1 ≤ k ∧ k ≤ 10 ∧ (pddf_psu_read_block bus tr command buf off data_len).2.2 =
      tr ++ List.replicate k (Req.block command data_len) := by
  obtain ⟨k, h1, h2, h3⟩ := read_block_loop_trace bus command off data_len 10 0 buf tr
  exact ⟨k, h1 (by norm_num), h2, h3⟩

/-- A block read only adds requests for its own register and length. -/
theorem read_block_trace (bus : Bus) (tr : List Req) (command : Nat) (buf : List Nat)
    (off data_len : Nat) :
    ∃ k, (pddf_psu_read_block bus tr command buf off data_len).2.2 =
      tr ++ List.replicate k (Req.block command data_len) := by
  obtain ⟨k, _, _, h3⟩ := read_block_trace_count bus tr command buf off data_len
  exact ⟨k, h3⟩

theorem pddf_psu_data_init_length (stack : Nat → Nat) :
    (pddf_psu_data_init stack).length = 49 := by
  simp [pddf_psu_data_init, sizeof_pddf_psu_data, off_fan_dir, off_model_opt,
    off_serial_number, off_model_name, MAX_MODEL_NAME, MAX_SERIAL_NUMBER, MAX_MODEL_OPT,
    MAX_FAN_DIR]

theorem memset_length (buf : List Nat) (off c n : Nat) : (memset buf off c n).length = buf.length :=
  writeAt_length _ _ _

/-! ## Facts about the transport functions -/

theorem psu_get_v_out_eq (bus : Bus) (tr : List Req) :
    psu_get_v_out bus tr = ((bus.word tr 0x8b % 65536).toNat, tr ++ [Req.word 0x8b]) := by
  have h : ¬ (((bus.word tr 0x8b % 65536).toNat : Int) < 0) := by omega
  simp only [psu_get_v_out, psu_get_v_out_loop, h, if_false]

theorem psu_get_vout_mode_eq (bus : Bus) (tr : List Req) :
    psu_get_vout_mode bus tr = ((bus.byte tr 0x20 % 256).toNat, tr ++ [Req.byte 0x20]) := by
  have h : ¬ (((bus.byte tr 0x20 % 256).toNat : Int) < 0) := by omega
  simp only [psu_get_vout_mode, psu_get_vout_mode_loop, h, if_false]

theorem psu_get_v_out_lt (bus : Bus) (tr : List Req) : (psu_get_v_out bus tr).1 < 65536 := by
  rw [psu_get_v_out_eq]; simp only; omega

theorem psu_get_vout_mode_lt (bus : Bus) (tr : List Req) : (psu_get_vout_mode bus tr).1 < 256 := by
  rw [psu_get_vout_mode_eq]; simp only; omega

/-! ## Closed forms of the two decodes used by the voltage handler -/

theorem two_complement_5 (x : Nat) (hx : x < 65536) :
    two_complement_to_int x 5 0x1f =
      if x % 32 < 16 then ((x % 32 : Nat) : Int) else ((x % 32 : Nat) : Int) - 32 := by
  have h := two_complement_to_int_eq 5 x (by norm_num) (by norm_num) hx
  have hm : ((2 : Int) ^ 5 - 1) = 0x1f := by norm_num
  have hv : x &&& (2 ^ 5 - 1) < 2 ^ 5 := by
    rw [Nat.and_pow_two_sub_one_eq_mod]; exact Nat.mod_lt _ (Nat.two_pow_pos 5)
  have hb := bnot_and 5 _ (by norm_num) hv
  rw [hm] at h
  rw [h, hb, Nat.testBit_to_div_mod, Nat.and_pow_two_sub_one_eq_mod]
  norm_num
  split_ifs <;> omega

theorem two_complement_11 (x : Nat) (hx : x < 65536) :
    two_complement_to_int x 11 0x7ff =
      if x % 2048 < 1024 then ((x % 2048 : Nat) : Int) else ((x % 2048 : Nat) : Int) - 2048 := by
  have h := two_complement_to_int_eq 11 x (by norm_num) (by norm_num) hx
  have hm : ((2 : Int) ^ 11 - 1) = 0x7ff := by norm_num
  have hv : x &&& (2 ^ 11 - 1) < 2 ^ 11 := by
    rw [Nat.and_pow_two_sub_one_eq_mod]; exact Nat.mod_lt _ (Nat.two_pow_pos 11)
  have hb := bnot_and 11 _ (by norm_num) hv
  rw [hm] at h
  rw [h, hb, Nat.testBit_to_div_mod, Nat.and_pow_two_sub_one_eq_mod]
  norm_num
  split_ifs <;> omega

/-! ## Voltage -/

theorem cstr_labels_nonNul :
    (∀ b ∈ cstr "DPS-850AB-5 B", b ≠ 0) ∧ (∀ b ∈ cstr "YM-2851J", b ≠ 0) ∧
    (∀ b ∈ cstr "G1441-0850WNB", b ≠ 0) ∧ (∀ b ∈ cstr "YM-2851F", b ≠ 0) := by
  decide

theorem wrap32_two_pow (k : Nat) (hk : k ≤ 16) : wrap32 ((2 : Int) ^ k) = 2 ^ k := by
  interval_cases k <;> exact wrap32_of_range _ (by norm_num) (by norm_num)

theorem v_out_format_neg (exponent mantissa : Int) (he : exponent < 0) (he2 : -16 ≤ exponent)
    (hm1 : -65536 ≤ mantissa) (hm2 : mantissa ≤ 65536) :
    v_out_format exponent mantissa =
      fmt_d (Int.tdiv (mantissa * 1000) (2 ^ (-exponent).toNat)) ++ cstr "\n" := by
  unfold v_out_format
  rw [if_neg (by omega), wrap32_of_range (mantissa * 1000) (by omega) (by omega),
    wrap32_two_pow _ (by omega)]

/-- The linear11 branch of `v_out_linear`. -/
theorem v_out_linear_linear11 (bus : Bus) (tr : List Req) (data : List Nat) (value : Nat)
    (hA : ¬ cstr "DPS-850AB-5 B" <+: cstrAt data 1)
    (hB : ¬ cstr "YM-2851J" <+: cstrAt data 1)
    (hC : ¬ cstr "G1441-0850WNB" <+: cstrAt data 1) :
    v_out_linear bus tr data value =
      (two_complement_to_int (value >>> 11) 5 0x1f,
        two_complement_to_int (value &&& 0x7ff) 11 0x7ff, tr) := by
  have h1 : off_model_name + 1 = 1 := rfl
  have eA := strncmp_eq_iff_starts _ cstr_labels_nonNul.1 (data.drop 1)
  have eB := strncmp_eq_iff_starts _ cstr_labels_nonNul.2.1 (data.drop 1)
  have eC := strncmp_eq_iff_starts _ cstr_labels_nonNul.2.2.1 (data.drop 1)
  have fA : strncmp_eq (cstr "DPS-850AB-5 B") (data.drop 1) (cstr "DPS-850AB-5 B").length = false :=
    Bool.eq_false_iff.2 (fun h => hA (eA.1 h))
  have fB : strncmp_eq (cstr "YM-2851J") (data.drop 1) (cstr "YM-2851J").length = false :=
    Bool.eq_false_iff.2 (fun h => hB (eB.1 h))
  have fC : strncmp_eq (cstr "G1441-0850WNB") (data.drop 1) (cstr "G1441-0850WNB").length = false :=
    Bool.eq_false_iff.2 (fun h => hC (eC.1 h))
  unfold v_out_linear
  rw [h1, fA, fB, fC]
  rfl

/-- C2. Linear11 voltage decode: when the model name (byte 0 skipped) starts with none
of the three linear16 labels and the exponent `e`, the two's complement of bits
[15:11] of the VOUT word `w`, is negative, then with `m` the two's complement of bits
[10:0] the handler prints the decimal rendering of `(m * 1000) / 2^(-e)` (division
truncating toward zero, nothing lost to 32-bit arithmetic) and a newline; `e` and `m`
are the reference values `w / 2048 - 32` and `w % 2048` (less 2048 from 1024 on); for
`w = 0xF801` the text is "500\n". -/
theorem v_out_linear11_decode (bus : Bus) (tr : List Req) (stack : Nat → Nat)
    (status : Int) (data_len : Nat) (data : List Nat) (tr1 : List Req) (w : Nat)
    (tr2 : List Req)
    (hname : read_model_name bus tr stack = (status, data_len, data, tr1))
    (hstatus : ¬ status < 0)
    (hA : ¬ cstr "DPS-850AB-5 B" <+: cstrAt data 1)
    (hB : ¬ cstr "YM-2851J" <+: cstrAt data 1)
    (hC : ¬ cstr "G1441-0850WNB" <+: cstrAt data 1)
    (hw : psu_get_v_out bus tr1 = (w, tr2))
    (he : two_complement_to_int (w >>> 11) 5 0x1f < 0) :
    (pddf_show_custom_psu_v_out bus tr stack).1 =
        ShowResult.output
          (fmt_d (Int.tdiv (two_complement_to_int (w &&& 0x7ff) 11 0x7ff * 1000)
            (2 ^ (-(two_complement_to_int (w >>> 11) 5 0x1f)).toNat)) ++ cstr "\n") ∧
      two_complement_to_int (w >>> 11) 5 0x1f = ((w / 2048 : Nat) : Int) - 32 ∧
      two_complement_to_int (w &&& 0x7ff) 11 0x7ff =
        (if w % 2048 < 1024 then ((w % 2048 : Nat) : Int) else ((w % 2048 : Nat) : Int) - 2048) ∧
      (w = 0xF801 →
        (pddf_show_custom_psu_v_out bus tr stack).1 = ShowResult.output (cstr "500\n")) := by
  have hwlt : w < 65536 := by
    have := psu_get_v_out_lt bus tr1
    rw [hw] at this; exact this
  have hsh : w >>> 11 = w / 2048 := by rw [Nat.shiftRight_eq_div_pow]
  have hand : w &&& 0x7ff = w % 2048 := Nat.and_pow_two_sub_one_eq_mod w 11
  have hdiv : w / 2048 < 32 := by omega
  have e5 := two_complement_5 (w >>> 11) (by omega)
  have e11 := two_complement_11 (w &&& 0x7ff) (by rw [hand]; omega)
  rw [hsh, Nat.mod_eq_of_lt hdiv] at e5
  rw [hand, Nat.mod_mod] at e11
  rw [hsh] at he
  have hE : two_complement_to_int (w / 2048) 5 0x1f = ((w / 2048 : Nat) : Int) - 32 := by
    rw [e5] at he ⊢
    split_ifs at he ⊢ with h
    · omega
    · rfl
  have hout : (pddf_show_custom_psu_v_out bus tr stack).1 =
      ShowResult.output
        (fmt_d (Int.tdiv (two_complement_to_int (w % 2048) 11 0x7ff * 1000)
          (2 ^ (-(two_complement_to_int (w / 2048) 5 0x1f)).toNat)) ++ cstr "\n") := by
    unfold pddf_show_custom_psu_v_out
    rw [hname]
    simp only [hstatus, if_false, hw]
    rw [v_out_linear_linear11 bus tr2 data w hA hB hC, hsh, hand]
    simp only
    rw [v_out_format_neg _ _ he (by rw [hE]; omega) (by rw [e11]; split_ifs <;> omega)
      (by rw [e11]; split_ifs <;> omega)]
  rw [hsh, hand]
  refine ⟨hout, hE, e11, ?_⟩
  intro h801
  rw [hout, h801]
  decide

theorem v_out_linear11_decode_witness :
    (pddf_show_custom_psu_v_out devHello [] stackAA).1 = ShowResult.output (cstr "500\n") :=
  (v_out_linear11_decode devHello [] stackAA
    (read_model_name devHello [] stackAA).1 (read_model_name devHello [] stackAA).2.1
    (read_model_name devHello [] stackAA).2.2.1 (read_model_name devHello [] stackAA).2.2.2
    0xF801 _ rfl (by decide) (by decide) (by decide) (by decide) rfl (by decide)).2.2.2 rfl

/-- The linear16 branch of `v_out_linear`. -/
theorem v_out_linear_linear16 (bus : Bus) (tr : List Req) (data : List Nat) (value : Nat)
    (hlabel : cstr "DPS-850AB-5 B" <+: cstrAt data 1 ∨ cstr "YM-2851J" <+: cstrAt data 1 ∨
      cstr "G1441-0850WNB" <+: cstrAt data 1) :
    v_out_linear bus tr data value =
      (if (psu_get_vout_mode bus tr).1 >>> 5 = 0 then
          two_complement_to_int ((psu_get_vout_mode bus tr).1 &&& 0x1f) 5 0x1f
        else 0,
        (value : Int), (psu_get_vout_mode bus tr).2) := by
  have h1 : off_model_name + 1 = 1 := rfl
  have eA := strncmp_eq_iff_starts _ cstr_labels_nonNul.1 (data.drop 1)
  have eB := strncmp_eq_iff_starts _ cstr_labels_nonNul.2.1 (data.drop 1)
  have eC := strncmp_eq_iff_starts _ cstr_labels_nonNul.2.2.1 (data.drop 1)
  have hcond : (strncmp_eq (cstr "DPS-850AB-5 B") (data.drop 1) (cstr "DPS-850AB-5 B").length ||
      strncmp_eq (cstr "YM-2851J") (data.drop 1) (cstr "YM-2851J").length ||
      strncmp_eq (cstr "G1441-0850WNB") (data.drop 1) (cstr "G1441-0850WNB").length) = true := by
    rcases hlabel with h | h | h
    · rw [eA.2 h]; rfl
    · rw [eB.2 h, Bool.or_true, Bool.true_or]
    · rw [eC.2 h, Bool.or_true]
  unfold v_out_linear
  rw [h1, if_pos hcond]
  rcases psu_get_vout_mode bus tr with ⟨vm, t⟩
  simp only
  split_ifs <;> rfl

/-- C3. Linear16 voltage decode: when the model name (byte 0 skipped) starts with
"DPS-850AB-5 B", "YM-2851J" or "G1441-0850WNB", the mantissa is the VOUT word taken
as unsigned (0..65535), the exponent is the 5-bit two's-complement decode of the low
5 bits of the VOUT_MODE byte when the top 3 bits of that byte are 0 and is 0
otherwise, and these are the values the handler prints from. -/
theorem v_out_linear16_decode (bus : Bus) (tr : List Req) (stack : Nat → Nat)
    (status : Int) (data_len : Nat) (data : List Nat) (tr1 : List Req) (w : Nat)
    (tr2 : List Req) (vout_mode : Nat) (tr3 : List Req)
    (hname : read_model_name bus tr stack = (status, data_len, data, tr1))
    (hstatus : ¬ status < 0)
    (hlabel : cstr "DPS-850AB-5 B" <+: cstrAt data 1 ∨ cstr "YM-2851J" <+: cstrAt data 1 ∨
      cstr "G1441-0850WNB" <+: cstrAt data 1)
    (hw : psu_get_v_out bus tr1 = (w, tr2))
    (hmode : psu_get_vout_mode bus tr2 = (vout_mode, tr3)) :
    (v_out_linear bus tr2 data w).2.1 = (w : Int) ∧ w < 65536 ∧
      (vout_mode >>> 5 = 0 →
        (v_out_linear bus tr2 data w).1 = two_complement_to_int (vout_mode &&& 0x1f) 5 0x1f ∧
        (v_out_linear bus tr2 data w).1 =
          (if vout_mode % 32 < 16 then ((vout_mode % 32 : Nat) : Int)
            else ((vout_mode % 32 : Nat) : Int) - 32)) ∧
      (vout_mode >>> 5 ≠ 0 → (v_out_linear bus tr2 data w).1 = 0) ∧
      pddf_show_custom_psu_v_out bus tr stack =
        (ShowResult.output (v_out_format (v_out_linear bus tr2 data w).1 (w : Int)), tr3) := by
  have hwlt : w < 65536 := by
    have := psu_get_v_out_lt bus tr1
    rw [hw] at this; exact this
  have hmlt : vout_mode < 256 := by
    have := psu_get_vout_mode_lt bus tr2
    rw [hmode] at this; exact this
  have hlin := v_out_linear_linear16 bus tr2 data w hlabel
  rw [hmode] at hlin
  simp only at hlin
  have hand : vout_mode &&& 0x1f = vout_mode % 32 := Nat.and_pow_two_sub_one_eq_mod vout_mode 5
  refine ⟨by rw [hlin], hwlt, ?_, ?_, ?_⟩
  · intro h0
    rw [hlin]
    simp only [h0, if_true]
    refine ⟨trivial, ?_⟩
    rw [two_complement_5 _ (by rw [hand]; omega), hand, Nat.mod_mod]
  · intro h0
    rw [hlin]
    simp only [h0, if_false]
  · unfold pddf_show_custom_psu_v_out
    rw [hname]
    simp only [hstatus, if_false, hw]
    rw [hlin]

theorem v_out_linear16_decode_witness :
    pddf_show_custom_psu_v_out devG1441 [] stackAA =
      (ShowResult.output (cstr "12000\n"),
        [Req.block 0x9a 1, Req.block 0x9a 14, Req.word 0x8b, Req.byte 0x20]) :=
  ((v_out_linear16_decode devG1441 [] stackAA
    (read_model_name devG1441 [] stackAA).1 (read_model_name devG1441 [] stackAA).2.1
    (read_model_name devG1441 [] stackAA).2.2.1 (read_model_name devG1441 [] stackAA).2.2.2
    0x1800 _ 0x17 _ rfl (by decide) (by decide) rfl rfl).2.2.2.2).trans (by decide)

/-! ## Model name -/

/-- What `read_model_name` returns when both of its block reads succeed and the
reported length is at most 15. -/
theorem read_model_name_ok (bus : Bus) (tr : List Req) (stack : Nat → Nat)
    (s1 : Int) (tr1 : List Req) (n : Nat) (s2 : Int) (data : List Nat) (tr2 : List Req)
    (h1 : pddf_psu_read_block bus tr 0x9a [data_len_init stack] 0 1 = (s1, [n], tr1))
    (hs1 : ¬ s1 < 0) (hn15 : n ≤ 15)
    (h2 : pddf_psu_read_block bus tr1 0x9a
      (memset (pddf_psu_data_init stack) off_model_name 0 (MAX_MODEL_NAME + 1))
      off_model_name (n + 1) = (s2, data, tr2))
    (hs2 : ¬ s2 < 0) :
    read_model_name bus tr stack = (s2, n, data.set (1 + n) 0, tr2) ∧
      cstrAt (data.set (1 + n) 0) 1 = ((data.take (n + 1)).drop 1).takeWhile nonNul := by
  have hlen : data.length = 49 := by
    have := read_block_length bus tr1 0x9a
      (memset (pddf_psu_data_init stack) off_model_name 0 (MAX_MODEL_NAME + 1))
      off_model_name (n + 1)
    rw [h2, memset_length, pddf_psu_data_init_length] at this
    exact this
  constructor
  · unfold read_model_name
    simp only [h1, hs1, if_false, List.headD_cons, h2, hs2]
    have e1 : off_model_name + (MAX_MODEL_NAME + 1 - 1) = 16 := rfl
    have e2 : off_model_name + (n + 1) = 1 + n := by rw [off_model_name]; omega
    have e3 : MAX_MODEL_NAME + 1 - 1 = 16 := rfl
    rw [e1, e2, e3]
    split_ifs with h
    · have : n = 15 := by omega
      subst this; rfl
    · rfl
  · rw [cstrAt_set_nul data 1 n (by omega), List.take_drop, Nat.add_comm 1 n]

/-- C4. Framing decode in the model-name handler: when the first read reports a
length `n <= 15` and the second read returns `[b0, c1, ..., cn]` with no `ci` NUL and
`c1..cn` not starting with "YM-2851F" or "YM-2851J", the handler prints exactly
`c1..cn` and a newline (byte 0 is skipped); for `n = 5` and the payload
`[5,'H','E','L','L','O']` the text is "HELLO\n". -/
theorem model_name_framing (bus : Bus) (tr : List Req) (stack : Nat → Nat)
    (s1 : Int) (tr1 : List Req) (n : Nat) (s2 : Int) (data : List Nat) (tr2 : List Req)
    (b0 : Nat) (cs : List Nat)
    (h1 : pddf_psu_read_block bus tr 0x9a [data_len_init stack] 0 1 = (s1, [n], tr1))
    (hs1 : ¬ s1 < 0) (hn15 : n ≤ 15)
    (h2 : pddf_psu_read_block bus tr1 0x9a
      (memset (pddf_psu_data_init stack) off_model_name 0 (MAX_MODEL_NAME + 1))
      off_model_name (n + 1) = (s2, data, tr2))
    (hs2 : ¬ s2 < 0)
    (hbytes : data.take (n + 1) = b0 :: cs)
    (hnul : ∀ c ∈ cs, c ≠ 0)
    (hF : ¬ cstr "YM-2851F" <+: cs) (hJ : ¬ cstr "YM-2851J" <+: cs) :
    pddf_get_custom_psu_model_name bus tr stack = (ShowResult.output (cs ++ cstr "\n"), tr2) ∧
      (n = 5 → b0 :: cs = 5 :: cstr "HELLO" →
        (pddf_get_custom_psu_model_name bus tr stack).1 = ShowResult.output (cstr "HELLO\n")) := by
  obtain ⟨hread, hstr⟩ := read_model_name_ok bus tr stack s1 tr1 n s2 data tr2 h1 hs1 hn15 h2 hs2
  rw [hbytes, List.drop_succ_cons, List.drop_zero, takeWhile_nonNul_of_all cs hnul] at hstr
  have h01 : off_model_name + 1 = 1 := rfl
  have eF := strncmp_eq_iff_starts _ cstr_labels_nonNul.2.2.2 ((data.set (1 + n) 0).drop 1)
  have eJ := strncmp_eq_iff_starts _ cstr_labels_nonNul.2.1 ((data.set (1 + n) 0).drop 1)
  have hstr2 : List.takeWhile nonNul ((data.set (1 + n) 0).drop 1) = cs := hstr
  rw [hstr2] at eF eJ
  have fF : strncmp_eq (cstr "YM-2851F") ((data.set (1 + n) 0).drop 1) (cstr "YM-2851F").length
      = false := Bool.eq_false_iff.2 (fun h => hF (eF.1 h))
  have fJ : strncmp_eq (cstr "YM-2851J") ((data.set (1 + n) 0).drop 1) (cstr "YM-2851J").length
      = false := Bool.eq_false_iff.2 (fun h => hJ (eJ.1 h))
  have hout : pddf_get_custom_psu_model_name bus tr stack =
      (ShowResult.output (cs ++ cstr "\n"), tr2) := by
    unfold pddf_get_custom_psu_model_name
    rw [hread]
    simp only [hs2, if_false, h01, fF, fJ, Bool.or_self, Bool.false_eq_true, hstr]
  refine ⟨hout, ?_⟩
  intro _ hp
  rw [hout]
  have hcs : cs = cstr "HELLO" := (List.cons.inj hp).2
  rw [hcs]
  rfl

theorem model_name_framing_witness :
    (pddf_get_custom_psu_model_name devHello [] stackAA).1 =
      ShowResult.output (cstr "HELLO\n") :=
  (model_name_framing devHello [] stackAA 0 _ 5 0
    (pddf_psu_read_block devHello [Req.block 0x9a 1] 0x9a
      (memset (pddf_psu_data_init stackAA) off_model_name 0 (MAX_MODEL_NAME + 1))
      off_model_name 6).2.1 _ 5 (cstr "HELLO")
    rfl (by decide) (by decide) rfl (by decide) (by decide) (by decide) (by decide)
    (by decide)).2 rfl rfl

/-! ## Serial number -/

theorem take_set_of_le (l : List Nat) (m n a : Nat) (h : m ≤ n) :
    (l.set n a).take m = l.take m := by
  induction l generalizing m n with
  | nil => simp
  | cons x xs ih =>
    cases n with
    | zero =>
      have hm : m = 0 := by omega
      subst hm; simp
    | succ n =>
      cases m with
      | zero => simp
      | succ m => simp [ih m n (by omega)]

theorem strncmp_eq_iff_take (lit : List Nat) (hlit : ∀ b ∈ lit, b ≠ 0) (mem : List Nat) :
    strncmp_eq mem lit lit.length = true ↔ mem.take lit.length = lit := by
  rw [strncmp_eq_comm, strncmp_eq_iff_starts lit hlit mem]
  constructor
  · intro h
    exact (List.prefix_iff_eq_take.1 (h.trans (List.takeWhile_prefix nonNul))).symm
  · intro h
    have hm : mem = lit ++ mem.drop lit.length := by
      conv_lhs => rw [← List.take_append_drop lit.length mem, h]
    rw [hm, List.takeWhile_append_of_pos (fun a ha => (nonNul_iff a).2 (hlit a ha))]
    exact List.prefix_append _ _

theorem models_labelChecked : ∀ m ∈ models, LabelChecked m := by
  unfold LabelChecked
  decide

theorem sizeof_eq : sizeof_pddf_psu_data = 49 := rfl

/-- The comparison made by the loop after the model field of `m` was read into `d`. -/
theorem probe_compare (m : model_name_info) (hwf : LabelChecked m) (d : List Nat) :
    strncmp_eq ((d.set (off_model_name + m.length) 0).drop off_model_name) (cstr m.model_name)
        m.chk_length = true ↔ d.take m.chk_length = cstr m.model_name := by
  obtain ⟨hchk, hle, hnul⟩ := hwf
  have h0 : off_model_name = 0 := rfl
  rw [h0, List.drop_zero, Nat.zero_add, hchk, strncmp_eq_iff_take _ hnul,
    take_set_of_le _ _ _ _ (by omega)]

/-- One turn of the loop on an entry whose probe succeeds without a match. -/
theorem serial_num_loop_miss_step (bus : Bus) (m : model_name_info) (s : serial_number_info)
    (rest : List (model_name_info × serial_number_info)) (hwf : LabelChecked m)
    (hmiss : ProbeMisses bus m) (data : List Nat) (tr : List Req)
    (hlen : data.length = sizeof_pddf_psu_data) :
    ∃ data2 k, data2.length = sizeof_pddf_psu_data ∧
      serial_num_loop bus ((m, s) :: rest) data tr =
        serial_num_loop bus rest data2 (tr ++ List.replicate k (Req.block m.offset m.length)) := by
  have hbuf : (memset data off_serial_number 0 (MAX_SERIAL_NUMBER + 1)).length =
      sizeof_pddf_psu_data := by rw [memset_length, hlen]
  obtain ⟨hst, hne⟩ := hmiss tr _ hbuf
  obtain ⟨k, hk⟩ := read_block_trace bus tr m.offset
    (memset data off_serial_number 0 (MAX_SERIAL_NUMBER + 1)) off_model_name m.length
  have hl := read_block_length bus tr m.offset
    (memset data off_serial_number 0 (MAX_SERIAL_NUMBER + 1)) off_model_name m.length
  rcases hcall : pddf_psu_read_block bus tr m.offset
    (memset data off_serial_number 0 (MAX_SERIAL_NUMBER + 1)) off_model_name m.length
    with ⟨st, d, t⟩
  rw [hcall] at hst hne hk hl
  simp only at hst hne hk hl
  have hcmp : strncmp_eq ((d.set (off_model_name + m.length) 0).drop off_model_name)
      (cstr m.model_name) m.chk_length = false :=
    Bool.eq_false_iff.2 (fun h => hne ((probe_compare m hwf d).1 h))
  refine ⟨(d.set (off_model_name + m.length) 0).set off_serial_number 0, k, ?_, ?_⟩
  · rw [List.length_set, List.length_set, hl, hbuf]
  · rw [serial_num_loop, hcall]
    simp only [hst, if_false, hcmp, Bool.false_eq_true, hk]

/-- The loop over entries whose probes all succeed without a match runs to its end
and requests nothing but their model fields. -/
theorem serial_num_loop_miss (bus : Bus) (entries : List (model_name_info × serial_number_info))
    (hwf : ∀ e ∈ entries, LabelChecked e.1) (hmiss : ∀ e ∈ entries, ProbeMisses bus e.1)
    (data : List Nat) (tr : List Req) (hlen : data.length = sizeof_pddf_psu_data) :
    ∃ data2 new, data2.length = sizeof_pddf_psu_data ∧
      serial_num_loop bus entries data tr = (none, data2, tr ++ new) ∧
      ∀ r ∈ new, ∃ e ∈ entries, r = Req.block e.1.offset e.1.length := by
  induction entries generalizing data tr with
  | nil => exact ⟨data, [], hlen, by simp [serial_num_loop], by simp⟩
  | cons e rest ih =>
    obtain ⟨m, s⟩ := e
    obtain ⟨d2, k, hl2, hstep⟩ := serial_num_loop_miss_step bus m s rest
      (hwf (m, s) (List.mem_cons_self _ _)) (hmiss (m, s) (List.mem_cons_self _ _)) data tr hlen
    obtain ⟨d3, new, hl3, hrest, hnew⟩ := ih (fun e he => hwf e (List.mem_cons_of_mem _ he))
      (fun e he => hmiss e (List.mem_cons_of_mem _ he)) d2
      (tr ++ List.replicate k (Req.block m.offset m.length)) hl2
    refine ⟨d3, List.replicate k (Req.block m.offset m.length) ++ new, hl3, ?_, ?_⟩
    · rw [hstep, hrest, List.append_assoc]
    · intro r hr
      rcases List.mem_append.1 hr with h | h
      · exact ⟨(m, s), List.mem_cons_self _ _, (List.eq_of_mem_replicate h)⟩
      · obtain ⟨e, he, hre⟩ := hnew r h
        exact ⟨e, List.mem_cons_of_mem _ he, hre⟩

/-- The loop over `pre ++ post` is the loop over `pre` followed, when that one ran to
its end, by the loop over `post`. -/
theorem serial_num_loop_append (bus : Bus) (pre post : List (model_name_info × serial_number_info))
    (data : List Nat) (tr : List Req) (data1 : List Nat) (tr1 : List Req)
    (hpre : serial_num_loop bus pre data tr = (none, data1, tr1)) :
    serial_num_loop bus (pre ++ post) data tr = serial_num_loop bus post data1 tr1 := by
  induction pre generalizing data tr with
  | nil =>
    simp only [serial_num_loop, Prod.mk.injEq, true_and] at hpre
    rw [List.nil_append, hpre.1, hpre.2]
  | cons e rest ih =>
    obtain ⟨m, s⟩ := e
    rw [List.cons_append, serial_num_loop]
    rw [serial_num_loop] at hpre
    rcases hcall : pddf_psu_read_block bus tr m.offset
      (memset data off_serial_number 0 (MAX_SERIAL_NUMBER + 1)) off_model_name m.length
      with ⟨st, d, t⟩
    rw [hcall] at hpre
    simp only at hpre ⊢
    by_cases hst : st < 0
    · simp [hst] at hpre
    · simp only [hst, if_false] at hpre ⊢
      by_cases hcmp : strncmp_eq ((d.set (off_model_name + m.length) 0).drop off_model_name)
          (cstr m.model_name) m.chk_length = true
      · simp only [hcmp, if_true] at hpre
        rcases hcall2 : pddf_psu_read_block bus t s.offset (d.set (off_model_name + m.length) 0)
          off_serial_number s.length with ⟨st2, d2, t2⟩
        rw [hcall2] at hpre
        simp only at hpre
        split_ifs at hpre <;> simp at hpre
      · simp only [hcmp, Bool.false_eq_true, if_false] at hpre ⊢
        exact ih _ _ hpre

theorem split_at_index {α : Type} (l : List α) (i : Nat) (x : α) (h : l[i]? = some x) :
    l = l.take i ++ x :: l.drop (i + 1) := by
  obtain ⟨hi, hx⟩ := List.getElem?_eq_some.1 h
  rw [← hx, ← List.drop_eq_getElem_cons hi, List.take_append_drop]

theorem mem_take_index {α : Type} (l : List α) (i : Nat) (e : α) (he : e ∈ l.take i) :
    ∃ j, j < i ∧ l[j]? = some e := by
  obtain ⟨j, hj, hje⟩ := List.mem_take_iff_getElem.1 he
  have hj2 : j < l.length := by omega
  exact ⟨j, by omega, by rw [List.getElem?_eq_getElem hj2, hje]⟩

theorem serials_length_le : ∀ s ∈ serials, s.length ≤ MAX_SERIAL_NUMBER := by
  decide

theorem zip_labelChecked : ∀ e ∈ models.zip serials, LabelChecked e.1 := by
  intro e he
  obtain ⟨m, s⟩ := e
  exact models_labelChecked m (List.of_mem_zip he).1

/-- One turn of the loop on an entry whose probe matches and whose serial field is
read. -/
theorem serial_num_loop_hit_step (bus : Bus) (m : model_name_info) (s : serial_number_info)
    (rest : List (model_name_info × serial_number_info)) (sbytes : List Nat)
    (hwf : LabelChecked m) (hslen : s.length ≤ MAX_SERIAL_NUMBER)
    (hhit : ProbeHits bus m) (hser : SerialReads bus s sbytes) (data : List Nat)
    (tr : List Req) (hlen : data.length = sizeof_pddf_psu_data) :
    ∃ data2 k1 k2,
      serial_num_loop bus ((m, s) :: rest) data tr =
        (some (ShowResult.output (sbytes.takeWhile nonNul ++ cstr "\n")), data2,
          tr ++ List.replicate k1 (Req.block m.offset m.length) ++
            List.replicate k2 (Req.block s.offset s.length)) := by
  have hbuf : (memset data off_serial_number 0 (MAX_SERIAL_NUMBER + 1)).length =
      sizeof_pddf_psu_data := by rw [memset_length, hlen]
  obtain ⟨hst, heq⟩ := hhit tr _ hbuf
  obtain ⟨k1, hk1⟩ := read_block_trace bus tr m.offset
    (memset data off_serial_number 0 (MAX_SERIAL_NUMBER + 1)) off_model_name m.length
  have hl := read_block_length bus tr m.offset
    (memset data off_serial_number 0 (MAX_SERIAL_NUMBER + 1)) off_model_name m.length
  rcases hcall : pddf_psu_read_block bus tr m.offset
    (memset data off_serial_number 0 (MAX_SERIAL_NUMBER + 1)) off_model_name m.length
    with ⟨st, d, t⟩
  rw [hcall] at hst heq hk1 hl
  simp only at hst heq hk1 hl
  subst hk1
  have hcmp := (probe_compare m hwf d).2 heq
  have hbuf2 : (d.set (off_model_name + m.length) 0).length = sizeof_pddf_psu_data := by
    rw [List.length_set, hl, hbuf]
  obtain ⟨hst2, hsb⟩ := hser (tr ++ List.replicate k1 (Req.block m.offset m.length)) _ hbuf2
  obtain ⟨k2, hk2⟩ := read_block_trace bus
    (tr ++ List.replicate k1 (Req.block m.offset m.length)) s.offset
    (d.set (off_model_name + m.length) 0) off_serial_number s.length
  have hl2 := read_block_length bus (tr ++ List.replicate k1 (Req.block m.offset m.length))
    s.offset (d.set (off_model_name + m.length) 0) off_serial_number s.length
  rcases hcall2 : pddf_psu_read_block bus
    (tr ++ List.replicate k1 (Req.block m.offset m.length)) s.offset
    (d.set (off_model_name + m.length) 0) off_serial_number s.length with ⟨st2, d2, t2⟩
  rw [hcall2] at hst2 hsb hk2 hl2
  simp only at hst2 hsb hk2 hl2
  subst hk2
  have hd2 : d2.length = 49 := by rw [hl2, hbuf2]; rfl
  have h19 : s.length ≤ 19 := hslen
  have hstr : cstrAt (d2.set (off_serial_number + s.length) 0) off_serial_number =
      sbytes.takeWhile nonNul := by
    rw [cstrAt_set_nul d2 off_serial_number s.length
      (by rw [hd2]; have : off_serial_number = 17 := rfl; omega), hsb]
  refine ⟨d2.set (off_serial_number + s.length) 0, k1, k2, ?_⟩
  rw [serial_num_loop, hcall]
  simp only [hst, if_false, hcmp, if_true, hcall2, hst2, hstr]

theorem regBus_read_take (regs : Nat → List Nat) (b w : Nat → Int) (t : List Req)
    (c : Nat) (buf : List Nat) (off n k : Nat) (h : n ≤ (regs c).length)
    (hfit : off + n ≤ buf.length) (hk : k ≤ n) :
    ¬ (pddf_psu_read_block (regBus regs b w) t c buf off n).1 < 0 ∧
      ((pddf_psu_read_block (regBus regs b w) t c buf off n).2.1.drop off).take k =
        ((regs c).take k).map (fun x => x % 256) := by
  have hl : ((regs c).take n).length = n := by rw [List.length_take]; omega
  rw [regBus_read_block regs b w t c buf off n h]
  refine ⟨by simp, ?_⟩
  simp only
  rw [writeAt_eq _ _ _ (by rw [hl]; exact hfit), List.append_assoc,
    List.drop_left' (by rw [List.length_take]; omega),
    List.take_append_of_le_length (by rw [List.length_map, hl]; exact hk),
    ← List.map_take, List.take_take, Nat.min_eq_left hk]

/-- C5. Serial lookup takes the first match: when every block read succeeds and `i`
is the smallest table index whose compared bytes (the first `chk_length` bytes read
at the model offset of entry `i`) equal its label, the handler prints the bytes read
at the serial offset of entry `i`, cut at the first NUL, and a newline; every
request it made is the read of the model field of an entry `j <= i` or of the serial
field of entry `i`; for `i = 2` register 0x2e is not read. -/
theorem serial_num_first_match (bus : Bus) (tr : List Req) (stack : Nat → Nat) (i : Nat)
    (m : model_name_info) (s : serial_number_info) (sbytes : List Nat)
    (hm : models[i]? = some m) (hs : serials[i]? = some s)
    (hmiss : ∀ j mj, j < i → models[j]? = some mj →
      ∀ (t : List Req) (buf : List Nat), buf.length = sizeof_pddf_psu_data →
        ¬ (pddf_psu_read_block bus t mj.offset buf off_model_name mj.length).1 < 0 ∧
        (pddf_psu_read_block bus t mj.offset buf off_model_name mj.length).2.1.take
          mj.chk_length ≠ cstr mj.model_name)
    (hhit : ∀ (t : List Req) (buf : List Nat), buf.length = sizeof_pddf_psu_data →
      ¬ (pddf_psu_read_block bus t m.offset buf off_model_name m.length).1 < 0 ∧
      (pddf_psu_read_block bus t m.offset buf off_model_name m.length).2.1.take m.chk_length =
        cstr m.model_name)
    (hser : ∀ (t : List Req) (buf : List Nat), buf.length = sizeof_pddf_psu_data →
      ¬ (pddf_psu_read_block bus t s.offset buf off_serial_number s.length).1 < 0 ∧
      ((pddf_psu_read_block bus t s.offset buf off_serial_number s.length).2.1.drop
        off_serial_number).take s.length = sbytes) :
    ∃ new, pddf_get_custom_psu_serial_num bus tr stack =
        (ShowResult.output (sbytes.takeWhile nonNul ++ cstr "\n"), tr ++ new) ∧
      (∀ r ∈ new, (∃ j mj, j ≤ i ∧ models[j]? = some mj ∧ r = Req.block mj.offset mj.length) ∨
        r = Req.block s.offset s.length) ∧
      (i = 2 → ∀ r ∈ new, r.command ≠ 0x2e) := by
  have hzip : (models.zip serials)[i]? = some (m, s) := List.getElem?_zip_eq_some.2 ⟨hm, hs⟩
  have hsplit := split_at_index _ i _ hzip
  have hmem : (m, s) ∈ models.zip serials := List.mem_iff_getElem?.2 ⟨i, hzip⟩
  have hwf_pre : ∀ e ∈ (models.zip serials).take i, LabelChecked e.1 :=
    fun e he => zip_labelChecked e (List.mem_of_mem_take he)
  have hidx : ∀ e ∈ (models.zip serials).take i, ∃ j, j < i ∧ models[j]? = some e.1 := by
    intro e he
    obtain ⟨j, hj, hje⟩ := mem_take_index _ i e he
    exact ⟨j, hj, (List.getElem?_zip_eq_some.1 hje).1⟩
  have hmiss_pre : ∀ e ∈ (models.zip serials).take i, ProbeMisses bus e.1 := by
    intro e he
    obtain ⟨j, hj, hje⟩ := hidx e he
    exact hmiss j e.1 hj hje
  obtain ⟨d1, new1, hl1, hloop1, hnew1⟩ := serial_num_loop_miss bus _ hwf_pre hmiss_pre
    (pddf_psu_data_init stack) tr (pddf_psu_data_init_length stack)
  have happ := serial_num_loop_append bus _ ((m, s) :: (models.zip serials).drop (i + 1))
    _ _ _ _ hloop1
  obtain ⟨d2, k1, k2, hstep⟩ := serial_num_loop_hit_step bus m s
    ((models.zip serials).drop (i + 1)) sbytes (zip_labelChecked (m, s) hmem)
    (serials_length_le s (List.of_mem_zip hmem).2) hhit hser d1 (tr ++ new1) hl1
  have hreq : ∀ r ∈ new1 ++ List.replicate k1 (Req.block m.offset m.length) ++
      List.replicate k2 (Req.block s.offset s.length),
      (∃ j mj, j ≤ i ∧ models[j]? = some mj ∧ r = Req.block mj.offset mj.length) ∨
        r = Req.block s.offset s.length := by
    intro r hr
    rcases List.mem_append.1 hr with h | h
    · rcases List.mem_append.1 h with h | h
      · obtain ⟨e, he, hre⟩ := hnew1 r h
        obtain ⟨j, hj, hje⟩ := hidx e he
        exact Or.inl ⟨j, e.1, by omega, hje, hre⟩
      · exact Or.inl ⟨i, m, le_refl i, hm, List.eq_of_mem_replicate h⟩
    · exact Or.inr (List.eq_of_mem_replicate h)
  refine ⟨new1 ++ List.replicate k1 (Req.block m.offset m.length) ++
    List.replicate k2 (Req.block s.offset s.length), ?_, hreq, ?_⟩
  · have hq : serial_num_loop bus (models.zip serials) (pddf_psu_data_init stack) tr =
        (some (ShowResult.output (sbytes.takeWhile nonNul ++ cstr "\n")), d2,
          tr ++ new1 ++ List.replicate k1 (Req.block m.offset m.length) ++
            List.replicate k2 (Req.block s.offset s.length)) := by
      rw [hsplit, happ, hstep]
    unfold pddf_get_custom_psu_serial_num
    rw [hq]
    simp only [List.append_assoc]
  · intro hi2 r hr
    subst hi2
    have hoff : ∀ mm ∈ models, mm.offset ≠ 0x2e := by decide
    have hs2 : s.offset = 0x35 := by
      have : serials[2]? = some ⟨psu_type.PSU_TYPE_AC_YM2851F, 0x35, 19, 19, "YM-2851F"⟩ := rfl
      rw [this] at hs
      rw [← Option.some.inj hs]
    rcases hreq r hr with ⟨j, mj, _, hmj, hrj⟩ | hrs
    · rw [hrj]
      exact hoff mj (List.mem_iff_getElem?.2 ⟨j, hmj⟩)
    · rw [hrs]
      show s.offset ≠ 0x2e
      rw [hs2]; decide

theorem serial_num_first_match_witness :
    ∃ new, pddf_get_custom_psu_serial_num devYM [] stackAA =
        (ShowResult.output ((cstr "SN0123456789ABCDEFG").takeWhile nonNul ++ cstr "\n"),
          [] ++ new) ∧
      (∀ r ∈ new, (∃ j mj, j ≤ 2 ∧ models[j]? = some mj ∧ r = Req.block mj.offset mj.length) ∨
        r = Req.block 0x35 19) ∧
      (2 = 2 → ∀ r ∈ new, r.command ≠ 0x2e) :=
  serial_num_first_match devYM [] stackAA 2
    ⟨psu_type.PSU_TYPE_AC_YM2851F, 0x20, 13, 8, "YM-2851F"⟩
    ⟨psu_type.PSU_TYPE_AC_YM2851F, 0x35, 19, 19, "YM-2851F"⟩
    (cstr "SN0123456789ABCDEFG") rfl rfl
    (by
      intro j mj hj hmj t buf hlen
      have hlen2 : buf.length = 49 := hlen
      have hcase : mj = ⟨psu_type.PSU_TYPE_AC_D850AB_5A, 0x15, 10, 10, "D850AB-5 A"⟩ ∨
          mj = ⟨psu_type.PSU_TYPE_AC_D850AB_5B, 0x15, 10, 10, "D850AB-5 B"⟩ := by
        interval_cases j
        · exact Or.inl (Option.some.inj hmj).symm
        · exact Or.inr (Option.some.inj hmj).symm
      have hr := regBus_read_take
        (fun c => if c = 0x20 then cstr "YM-2851F-0123" else
          if c = 0x35 then cstr "SN0123456789ABCDEFG" else cstr "ZZZZZZZZZZZZZZZZZZZ")
        (fun _ => 0) (fun _ => 0) t 0x15 buf 0 10 10 (by decide) (by omega) (by decide)
      rcases hcase with h | h <;> subst h
      · refine ⟨hr.1, ?_⟩
        intro hEq
        have h2 := hEq.symm.trans hr.2
        revert h2; decide
      · refine ⟨hr.1, ?_⟩
        intro hEq
        have h2 := hEq.symm.trans hr.2
        revert h2; decide)
    (by
      intro t buf hlen
      have hlen2 : buf.length = 49 := hlen
      exact regBus_read_take _ (fun _ => 0) (fun _ => 0) t 0x20 buf 0 13 8 (by decide)
        (by omega) (by decide))
    (by
      intro t buf hlen
      have hlen2 : buf.length = 49 := hlen
      exact regBus_read_take _ (fun _ => 0) (fun _ => 0) t 0x35 buf 17 19 19 (by decide)
        (by omega) (by decide))

/-- C6. Serial lookup exhaustion: when every probing block read succeeds and the
bytes compared for no table entry equal its label, the handler returns `-ENODATA`
with no text stored, and every request it made is the read of some entry's model
field: no serial offset is read. -/
theorem serial_num_exhaustion (bus : Bus) (tr : List Req) (stack : Nat → Nat)
    (hmiss : ∀ m ∈ models, ∀ (t : List Req) (buf : List Nat),
      buf.length = sizeof_pddf_psu_data →
        ¬ (pddf_psu_read_block bus t m.offset buf off_model_name m.length).1 < 0 ∧
        (pddf_psu_read_block bus t m.offset buf off_model_name m.length).2.1.take m.chk_length ≠
          cstr m.model_name) :
    ∃ new, pddf_get_custom_psu_serial_num bus tr stack =
        (ShowResult.error (-ENODATA), tr ++ new) ∧
      (∀ r ∈ new, ∃ m ∈ models, r = Req.block m.offset m.length) ∧
      (∀ r ∈ new, ∀ s ∈ serials, r.command ≠ s.offset) := by
  have hm2 : ∀ e ∈ models.zip serials, ProbeMisses bus e.1 := by
    intro e he
    obtain ⟨m, s⟩ := e
    exact hmiss m (List.of_mem_zip he).1
  obtain ⟨d2, new, _, hloop, hnew⟩ := serial_num_loop_miss bus (models.zip serials)
    zip_labelChecked hm2 (pddf_psu_data_init stack) tr (pddf_psu_data_init_length stack)
  have hreq : ∀ r ∈ new, ∃ m ∈ models, r = Req.block m.offset m.length := by
    intro r hr
    obtain ⟨e, he, hre⟩ := hnew r hr
    obtain ⟨m, s⟩ := e
    exact ⟨m, (List.of_mem_zip he).1, hre⟩
  have hdisj : ∀ m ∈ models, ∀ s ∈ serials, m.offset ≠ s.offset := by decide
  refine ⟨new, ?_, hreq, ?_⟩
  · unfold pddf_get_custom_psu_serial_num
    rw [hloop]
  · intro r hr s hs
    obtain ⟨m, hm, hrm⟩ := hreq r hr
    rw [hrm]
    exact hdisj m hm s hs

theorem devUnknown_misses : ∀ m ∈ models, ∀ (t : List Req) (buf : List Nat),
    buf.length = sizeof_pddf_psu_data →
      ¬ (pddf_psu_read_block devUnknown t m.offset buf off_model_name m.length).1 < 0 ∧
      (pddf_psu_read_block devUnknown t m.offset buf off_model_name m.length).2.1.take
        m.chk_length ≠ cstr m.model_name := by
  intro m hm t buf hlen
  have hlen2 : buf.length = 49 := hlen
  have hml : m.length ≤ 13 ∧ m.chk_length ≤ m.length ∧ 1 ≤ m.chk_length ∧
      (cstr m.model_name).head? ≠ some 90 := by
    revert m; decide
  unfold devUnknown
  rw [regBus_read_block _ _ _ _ _ _ _ _ (by simp [cstr]; omega)]
  refine ⟨by simp, ?_⟩
  simp only
  rw [writeAt_eq _ _ _ (by simp [off_model_name, cstr]; omega)]
  intro hEq
  apply hml.2.2.2
  rw [← hEq]
  have h0 : off_model_name = 0 := rfl
  obtain ⟨k, hk⟩ : ∃ k, m.chk_length = k + 1 := ⟨m.chk_length - 1, by omega⟩
  obtain ⟨j, hj⟩ : ∃ j, m.length = j + 1 := ⟨m.length - 1, by omega⟩
  rw [h0, hk, hj]
  simp [cstr]

theorem serial_num_exhaustion_witness :
    ∃ new, pddf_get_custom_psu_serial_num devUnknown [] stackAA =
        (ShowResult.error (-ENODATA), [] ++ new) ∧
      (∀ r ∈ new, ∃ m ∈ models, r = Req.block m.offset m.length) ∧
      (∀ r ∈ new, ∀ s ∈ serials, r.command ≠ s.offset) :=
  serial_num_exhaustion devUnknown [] stackAA devUnknown_misses

/-- C7. Serial lookup aborts on a read failure: when the loop has passed the entries
before entry `i` and the block read of the model field of entry `i` fails, or that
read succeeds with a match and the block read of its serial field fails, the handler
returns exactly the failing status, stores no text, and the list of requests ends
with those of the failed read: nothing is read for a later entry. -/
theorem serial_num_aborts_on_read_failure (bus : Bus) (tr : List Req) (stack : Nat → Nat)
    (i : Nat) (m : model_name_info) (s : serial_number_info) (data1 : List Nat)
    (tr1 : List Req)
    (hm : models[i]? = some m) (hs : serials[i]? = some s)
    (hpre : serial_num_loop bus ((models.zip serials).take i) (pddf_psu_data_init stack) tr =
      (none, data1, tr1)) :
    (∀ (e : Int) (d2 : List Nat) (tr2 : List Req),
      pddf_psu_read_block bus tr1 m.offset
          (memset data1 off_serial_number 0 (MAX_SERIAL_NUMBER + 1)) off_model_name m.length =
        (e, d2, tr2) →
      e < 0 → pddf_get_custom_psu_serial_num bus tr stack = (ShowResult.error e, tr2)) ∧
    (∀ (e0 : Int) (d2 : List Nat) (tr2 : List Req) (e : Int) (d3 : List Nat) (tr3 : List Req),
      pddf_psu_read_block bus tr1 m.offset
          (memset data1 off_serial_number 0 (MAX_SERIAL_NUMBER + 1)) off_model_name m.length =
        (e0, d2, tr2) →
      ¬ e0 < 0 → d2.take m.chk_length = cstr m.model_name →
      pddf_psu_read_block bus tr2 s.offset (d2.set (off_model_name + m.length) 0)
          off_serial_number s.length = (e, d3, tr3) →
      e < 0 → pddf_get_custom_psu_serial_num bus tr stack = (ShowResult.error e, tr3)) := by
  have hzip : (models.zip serials)[i]? = some (m, s) := List.getElem?_zip_eq_some.2 ⟨hm, hs⟩
  have hsplit := split_at_index _ i _ hzip
  have hmem : (m, s) ∈ models.zip serials := List.mem_iff_getElem?.2 ⟨i, hzip⟩
  have happ := serial_num_loop_append bus _ ((m, s) :: (models.zip serials).drop (i + 1))
    _ _ _ _ hpre
  constructor
  · intro e d2 tr2 hread he
    have hq : serial_num_loop bus (models.zip serials) (pddf_psu_data_init stack) tr =
        (some (ShowResult.error e), d2.set off_model_name 0, tr2) := by
      rw [hsplit, happ, serial_num_loop, hread]
      simp only [he, if_true]
    unfold pddf_get_custom_psu_serial_num
    rw [hq]
  · intro e0 d2 tr2 e d3 tr3 hread he0 hmatch hread2 he
    have hcmp := (probe_compare m (zip_labelChecked (m, s) hmem) d2).2 hmatch
    have hq : serial_num_loop bus (models.zip serials) (pddf_psu_data_init stack) tr =
        (some (ShowResult.error e), d3.set off_serial_number 0, tr3) := by
      rw [hsplit, happ, serial_num_loop, hread]
      simp only [he0, if_false, hcmp, if_true, hread2, he]
    unfold pddf_get_custom_psu_serial_num
    rw [hq]

theorem serial_num_aborts_on_read_failure_witness :
    pddf_get_custom_psu_serial_num devFlaky [] stackAA =
      (ShowResult.error (-5), List.replicate 11 (Req.block 0x15 10)) :=
  (serial_num_aborts_on_read_failure devFlaky [] stackAA 1
    ⟨psu_type.PSU_TYPE_AC_D850AB_5B, 0x15, 10, 10, "D850AB-5 B"⟩
    ⟨psu_type.PSU_TYPE_AC_D850AB_5B, 0x2e, 11, 11, "D850AB-5 B"⟩
    (serial_num_loop devFlaky ((models.zip serials).take 1) (pddf_psu_data_init stackAA) []).2.1
    [Req.block 0x15 10] rfl rfl rfl).1 (-5)
    (pddf_psu_read_block devFlaky [Req.block 0x15 10] 0x15
      (memset (serial_num_loop devFlaky ((models.zip serials).take 1)
        (pddf_psu_data_init stackAA) []).2.1 off_serial_number 0 (MAX_SERIAL_NUMBER + 1))
      off_model_name 10).2.1
    (List.replicate 11 (Req.block 0x15 10)) rfl (by decide)

/-! ## Fan direction -/

theorem takeWhile_append_of_mem_nul (a b : List Nat) (h : 0 ∈ a) :
    (a ++ b).takeWhile nonNul = a.takeWhile nonNul := by
  induction a with
  | nil => simp at h
  | cons x xs ih =>
    by_cases hx : nonNul x = true
    · have hx0 : x ≠ 0 := (nonNul_iff x).1 hx
      have hmem : 0 ∈ xs := by
        rcases List.mem_cons.1 h with h | h
        · exact absurd h.symm hx0
        · exact h
      simp [List.takeWhile_cons, hx, ih hmem]
    · simp [List.takeWhile_cons, hx]

/-- A store above a NUL does not change the string that ends at that NUL. -/
theorem cstrAt_writeAt_above (buf bytes : List Nat) (off k off2 : Nat)
    (hk : buf[k]? = some 0) (h1 : off ≤ k) (h2 : k < off2)
    (hfit : off2 + bytes.length ≤ buf.length) :
    cstrAt (writeAt buf off2 bytes) off = cstrAt buf off := by
  have hmem : 0 ∈ (buf.take off2).drop off := by
    rw [List.mem_iff_getElem?]
    refine ⟨k - off, ?_⟩
    rw [List.getElem?_drop, List.getElem?_take_of_lt (by omega), ← hk]
    congr 1; omega
  have hoff : off ≤ (buf.take off2).length := by rw [List.length_take]; omega
  unfold cstrAt
  rw [writeAt_eq bytes buf off2 hfit, List.append_assoc,
    List.drop_append_of_le_length hoff, takeWhile_append_of_mem_nul _ _ hmem]
  conv_rhs => rw [← List.take_append_drop off2 buf, List.drop_append_of_le_length hoff,
    takeWhile_append_of_mem_nul _ _ hmem]

/-- After a successful framing the struct has its 49 bytes and `model_name` holds a
NUL at an index between 1 and 16. -/
theorem read_model_name_terminated (bus : Bus) (tr : List Req) (stack : Nat → Nat)
    (status : Int) (data_len : Nat) (data : List Nat) (tr1 : List Req)
    (hname : read_model_name bus tr stack = (status, data_len, data, tr1))
    (hstatus : ¬ status < 0) :
    data.length = 49 ∧ ∃ k, 1 ≤ k ∧ k ≤ 16 ∧ data[k]? = some 0 := by
  unfold read_model_name at hname
  rcases hc1 : pddf_psu_read_block bus tr 0x9a [data_len_init stack] 0 1 with ⟨s1, dl, t1⟩
  rw [hc1] at hname
  simp only at hname
  by_cases hs1 : s1 < 0
  · simp only [hs1, if_true, Prod.mk.injEq] at hname
    exact absurd (hname.1 ▸ hs1) hstatus
  · simp only [hs1, if_false] at hname
    have hl := read_block_length bus t1 0x9a
      (memset (pddf_psu_data_init stack) off_model_name 0 (MAX_MODEL_NAME + 1)) off_model_name
      (dl.headD 0 + 1)
    rcases hc2 : pddf_psu_read_block bus t1 0x9a
      (memset (pddf_psu_data_init stack) off_model_name 0 (MAX_MODEL_NAME + 1)) off_model_name
      (dl.headD 0 + 1) with ⟨s2, d, t2⟩
    rw [hc2] at hname hl
    simp only at hname hl
    rw [memset_length, pddf_psu_data_init_length] at hl
    have e1 : off_model_name + (MAX_MODEL_NAME + 1 - 1) = 16 := rfl
    have e3 : MAX_MODEL_NAME + 1 - 1 = 16 := rfl
    have e0 : off_model_name = 0 := rfl
    by_cases hs2 : s2 < 0
    · simp only [hs2, if_true, Prod.mk.injEq] at hname
      exact absurd (hname.1 ▸ hs2) hstatus
    · simp only [hs2, if_false, e1, e3, e0, Nat.zero_add] at hname
      split_ifs at hname with h16
      · simp only [Prod.mk.injEq] at hname
        obtain ⟨_, _, hd, _⟩ := hname
        subst hd
        exact ⟨by rw [List.length_set, hl], 16, by omega, le_refl 16,
          by rw [List.getElem?_set_self (by omega)]⟩
      · simp only [Prod.mk.injEq] at hname
        obtain ⟨_, _, hd, _⟩ := hname
        subst hd
        exact ⟨by rw [List.length_set, hl], dl.headD 0 + 1, by omega, by omega,
          by rw [List.getElem?_set_self (by omega)]⟩

/-- The framing requests nothing but block reads at register 0x9a. -/
theorem read_model_name_trace (bus : Bus) (tr : List Req) (stack : Nat → Nat) :
    ∃ new, (read_model_name bus tr stack).2.2.2 = tr ++ new ∧
      ∀ r ∈ new, ∃ len, r = Req.block 0x9a len := by
  unfold read_model_name
  obtain ⟨k1, hk1⟩ := read_block_trace bus tr 0x9a [data_len_init stack] 0 1
  rcases hc1 : pddf_psu_read_block bus tr 0x9a [data_len_init stack] 0 1 with ⟨s1, dl, t1⟩
  rw [hc1] at hk1
  simp only at hk1 ⊢
  subst hk1
  have hreq1 : ∀ r ∈ List.replicate k1 (Req.block 0x9a 1), ∃ len, r = Req.block 0x9a len :=
    fun r hr => ⟨1, List.eq_of_mem_replicate hr⟩
  by_cases hs1 : s1 < 0
  · simp only [hs1, if_true]
    exact ⟨_, rfl, hreq1⟩
  · simp only [hs1, if_false]
    obtain ⟨k2, hk2⟩ := read_block_trace bus (tr ++ List.replicate k1 (Req.block 0x9a 1)) 0x9a
      (memset (pddf_psu_data_init stack) off_model_name 0 (MAX_MODEL_NAME + 1)) off_model_name
      (dl.headD 0 + 1)
    rcases hc2 : pddf_psu_read_block bus (tr ++ List.replicate k1 (Req.block 0x9a 1)) 0x9a
      (memset (pddf_psu_data_init stack) off_model_name 0 (MAX_MODEL_NAME + 1)) off_model_name
      (dl.headD 0 + 1) with ⟨s2, d, t2⟩
    rw [hc2] at hk2
    simp only at hk2 ⊢
    subst hk2
    have hreq : ∀ r ∈ List.replicate k1 (Req.block 0x9a 1) ++
        List.replicate k2 (Req.block 0x9a (dl.headD 0 + 1)), ∃ len, r = Req.block 0x9a len := by
      intro r hr
      rcases List.mem_append.1 hr with h | h
      · exact hreq1 r h
      · exact ⟨_, List.eq_of_mem_replicate h⟩
    split_ifs <;> exact ⟨_, List.append_assoc _ _ _, hreq⟩

theorem writeAt_lt (bytes : List Nat) (buf : List Nat) (off : Nat)
    (h : ∀ b ∈ buf, b < 256) : ∀ b ∈ writeAt buf off bytes, b < 256 := by
  induction bytes generalizing buf off with
  | nil => exact h
  | cons x xs ih =>
    rw [writeAt]
    apply ih
    intro b hb
    rcases List.mem_or_eq_of_mem_set hb with h1 | h1
    · exact h b h1
    · rw [h1]; exact Nat.mod_lt _ (by norm_num)

theorem read_block_loop_lt (bus : Bus) (command off data_len : Nat) (fuel : Nat)
    (result : Int) (buf : List Nat) (tr : List Req) (h : ∀ b ∈ buf, b < 256) :
    ∀ b ∈ (pddf_psu_read_block_loop bus command off data_len fuel result buf tr).2.1,
      b < 256 := by
  induction fuel generalizing result buf tr with
  | zero => exact h
  | succ k ih =>
    unfold pddf_psu_read_block_loop
    have hw : ∀ b ∈ (i2c_smbus_read_i2c_block_data bus tr command data_len buf off).2.1,
        b < 256 := by
      unfold i2c_smbus_read_i2c_block_data
      cases bus.block tr command data_len with
      | error e => exact h
      | data bytes => exact writeAt_lt _ _ _ h
    rcases hcall : i2c_smbus_read_i2c_block_data bus tr command data_len buf off with ⟨r, b, t⟩
    rw [hcall] at hw
    simp only at hw ⊢
    split_ifs
    · exact ih _ _ _ hw
    · exact ih _ _ _ hw
    · exact hw

theorem fan_dir_init_lt (stack : Nat → Nat) : ∀ b ∈ fan_dir_init stack, b < 256 := by
  intro b hb
  unfold fan_dir_init at hb
  obtain ⟨i, _, hi⟩ := List.mem_map.1 hb
  rw [← hi]; exact Nat.mod_lt _ (by norm_num)

theorem strncpy_bytes_length (src : List Nat) (n : Nat) : (strncpy_bytes src n).length = n := by
  induction n generalizing src with
  | zero => cases src <;> rfl
  | succ n ih =>
    cases src with
    | nil => simp [strncpy_bytes]
    | cons c cs =>
      rw [strncpy_bytes]
      split_ifs
      · simp
      · simp [ih cs]

/-- The string left by `strncpy`: the source cut to `n` bytes and at its first NUL. -/
theorem strncpy_bytes_string (src : List Nat) (n : Nat) (h : ∀ b ∈ src, b < 256) :
    ((strncpy_bytes src n).map (fun b => b % 256)).takeWhile nonNul =
      (src.take n).takeWhile nonNul := by
  induction n generalizing src with
  | zero => cases src <;> rfl
  | succ n ih =>
    cases src with
    | nil => simp [strncpy_bytes, List.replicate_succ, nonNul]
    | cons c cs =>
      rw [strncpy_bytes]
      by_cases hc : c = 0
      · subst hc
        simp [List.replicate_succ, nonNul]
      · have hc256 : c % 256 = c := Nat.mod_eq_of_lt (h c (List.mem_cons_self _ _))
        have hnn : nonNul c = true := (nonNul_iff c).2 hc
        rw [if_neg hc, List.map_cons, hc256, List.take_succ_cons, List.takeWhile_cons,
          List.takeWhile_cons, if_pos hnn, if_pos hnn,
          ih cs (fun b hb => h b (List.mem_cons_of_mem _ hb))]

/-- The test for "G1441-0850WNB" made after `data.fan_dir` was cleared is a test on the
model name left by the framing. -/
theorem fan_dir_label_test (data : List Nat) (hlen : data.length = 49)
    (hnul : ∃ k, 1 ≤ k ∧ k ≤ 16 ∧ data[k]? = some 0) :
    strncmp_eq (cstr "G1441-0850WNB")
        ((memset data off_fan_dir 0 (MAX_FAN_DIR + 1)).drop (off_model_name + 1))
        (cstr "G1441-0850WNB").length = true ↔
      cstr "G1441-0850WNB" <+: cstrAt data 1 := by
  obtain ⟨k, hk1, hk16, hk⟩ := hnul
  have h45 : off_fan_dir = 45 := rfl
  have h := cstrAt_writeAt_above data (List.replicate (MAX_FAN_DIR + 1) 0) 1 k off_fan_dir hk hk1
    (by omega) (by rw [List.length_replicate, hlen, h45]; decide)
  rw [strncmp_eq_iff_starts _ cstr_labels_nonNul.2.2.1]
  have h1 : off_model_name + 1 = 1 := rfl
  rw [h1]
  unfold cstrAt memset at *
  rw [h]

/-- The cleared `data.fan_dir` ends the struct with a NUL at index 48. -/
theorem memset_fan_dir (data : List Nat) (hlen : data.length = 49) :
    (memset data off_fan_dir 0 (MAX_FAN_DIR + 1)).length = 49 ∧
      (memset data off_fan_dir 0 (MAX_FAN_DIR + 1)).drop 48 = [0] := by
  have h45 : off_fan_dir = 45 := rfl
  have h4 : MAX_FAN_DIR + 1 = 4 := rfl
  refine ⟨by rw [memset_length, hlen], ?_⟩
  unfold memset
  rw [writeAt_eq _ _ _ (by rw [List.length_replicate, hlen, h45, h4]), h45, h4,
    List.append_assoc, List.drop_append_eq_append_drop, List.length_take,
    List.drop_of_length_le (by rw [List.length_take]; omega)]
  have hmin : min 45 data.length = 45 := by omega
  rw [hmin, List.drop_of_length_le (l := data) (by rw [List.length_replicate]; omega)]
  rfl

/-- Text read from `data.fan_dir` after a three-character constant was copied into
the cleared member. -/
theorem fan_dir_text (data : List Nat) (hlen : data.length = 49) (txt : List Nat)
    (h3 : txt.length = 3) (hmod : txt.map (fun b => b % 256) = txt)
    (hnn : ∀ b ∈ txt, b ≠ 0) :
    cstrAt (writeAt (memset data off_fan_dir 0 (MAX_FAN_DIR + 1)) off_fan_dir txt)
      off_fan_dir = txt := by
  obtain ⟨hl, hd⟩ := memset_fan_dir data hlen
  generalize memset data off_fan_dir 0 (MAX_FAN_DIR + 1) = M at hl hd ⊢
  have h45 : off_fan_dir = 45 := rfl
  have h48 : 45 + 3 = 48 := rfl
  unfold cstrAt
  rw [h45, writeAt_eq _ _ _ (by rw [hl, h3]; decide), List.append_assoc,
    List.drop_left' (by rw [List.length_take, hl]; rfl), h3, h48, hd, hmod,
    takeWhile_append_nul, takeWhile_nonNul_of_all txt hnn]

/-- C8. Fan-direction special case: when the model name (byte 0 skipped) starts with
"G1441-0850WNB" the handler prints "F2B\n" and requests nothing beyond the block
reads of the framing at register 0x9a: register 0xC3 is read neither as a byte nor
as a block, whatever the device holds there. -/
theorem fan_direction_g1441 (bus : Bus) (tr : List Req) (stack : Nat → Nat)
    (status : Int) (data_len : Nat) (data : List Nat) (tr1 : List Req)
    (hname : read_model_name bus tr stack = (status, data_len, data, tr1))
    (hstatus : ¬ status < 0)
    (hlabel : cstr "G1441-0850WNB" <+: cstrAt data 1) :
    pddf_get_custom_psu_fan_direction bus tr stack = (ShowResult.output (cstr "F2B\n"), tr1) ∧
      ∃ new, tr1 = tr ++ new ∧ (∀ r ∈ new, ∃ len, r = Req.block 0x9a len) ∧
        ∀ r ∈ new, r.command ≠ 0xC3 := by
  obtain ⟨hlen, hnul⟩ := read_model_name_terminated bus tr stack status data_len data tr1
    hname hstatus
  have htest := (fan_dir_label_test data hlen hnul).2 hlabel
  have htxt := fan_dir_text data hlen (cstr "F2B") (by decide) (by decide) (by decide)
  constructor
  · unfold pddf_get_custom_psu_fan_direction
    rw [hname]
    simp only [hstatus, if_false, htest, if_true, htxt]
    rfl
  · obtain ⟨new, htr, hreq⟩ := read_model_name_trace bus tr stack
    rw [hname] at htr
    refine ⟨new, htr, hreq, ?_⟩
    intro r hr
    obtain ⟨len, hlen⟩ := hreq r hr
    rw [hlen]
    exact (by decide : (0x9a : Nat) ≠ 0xC3)

theorem fan_direction_g1441_witness :
    pddf_get_custom_psu_fan_direction devG1441 [] stackAA =
      (ShowResult.output (cstr "F2B\n"), [Req.block 0x9a 1, Req.block 0x9a 14]) :=
  (fan_direction_g1441 devG1441 [] stackAA
    (read_model_name devG1441 [] stackAA).1 (read_model_name devG1441 [] stackAA).2.1
    (read_model_name devG1441 [] stackAA).2.2.1 [Req.block 0x9a 1, Req.block 0x9a 14]
    rfl (by decide) (by decide)).1

/-- The two flag tests of the fan-direction handler, in terms of bits [4:3]. -/
theorem fan_dir_flags (s : Nat) :
    ((s >>> 3) &&& 0x3 = 0b10 → (s >>> 3) &&& 0x01 = 0 ∧ (s >>> 3) &&& 0x02 ≠ 0) ∧
    ((s >>> 3) &&& 0x3 = 0b01 → (s >>> 3) &&& 0x01 ≠ 0) ∧
    ((s >>> 3) &&& 0x3 = 0b11 → (s >>> 3) &&& 0x01 ≠ 0) ∧
    ((s >>> 3) &&& 0x3 = 0 → (s >>> 3) &&& 0x01 = 0 ∧ (s >>> 3) &&& 0x02 = 0) := by
  have h1 : (s >>> 3) &&& 0x01 = ((s >>> 3) &&& 0x3) &&& 0x01 := by
    rw [Nat.and_assoc]; rfl
  have h2 : (s >>> 3) &&& 0x02 = ((s >>> 3) &&& 0x3) &&& 0x02 := by
    rw [Nat.and_assoc]; rfl
  rw [h1, h2]
  refine ⟨?_, ?_, ?_, ?_⟩ <;> intro h <;> rw [h] <;> decide

/-- C9. Fan-direction bit pattern: when the model is not G1441-0850WNB and the status
byte `s` is read without error, bits [4:3] = 10 give "F2B\n" and bits [4:3] = 01 give
"B2F\n"; the only request after the framing is the byte read at 0xC3, so the register
is not read as a block. -/
theorem fan_direction_status_bits (bus : Bus) (tr : List Req) (stack : Nat → Nat)
    (status : Int) (data_len : Nat) (data : List Nat) (tr1 : List Req) (s : Nat)
    (hname : read_model_name bus tr stack = (status, data_len, data, tr1))
    (hstatus : ¬ status < 0)
    (hlabel : ¬ cstr "G1441-0850WNB" <+: cstrAt data 1)
    (hs : bus.byte tr1 0xC3 = (s : Int)) :
    ((s >>> 3) &&& 0x3 = 0b10 →
        pddf_get_custom_psu_fan_direction bus tr stack =
          (ShowResult.output (cstr "F2B\n"), tr1 ++ [Req.byte 0xC3])) ∧
      ((s >>> 3) &&& 0x3 = 0b01 →
        pddf_get_custom_psu_fan_direction bus tr stack =
          (ShowResult.output (cstr "B2F\n"), tr1 ++ [Req.byte 0xC3])) ∧
      ∃ new, tr1 = tr ++ new ∧ ∀ r ∈ new, ∃ len, r = Req.block 0x9a len := by
  obtain ⟨hlen, hnul⟩ := read_model_name_terminated bus tr stack status data_len data tr1
    hname hstatus
  have htest : strncmp_eq (cstr "G1441-0850WNB")
      ((memset data off_fan_dir 0 (MAX_FAN_DIR + 1)).drop (off_model_name + 1))
      (cstr "G1441-0850WNB").length = false :=
    Bool.eq_false_iff.2 (fun h => hlabel ((fan_dir_label_test data hlen hnul).1 h))
  have hF := fan_dir_text data hlen (cstr "F2B") (by decide) (by decide) (by decide)
  have hB := fan_dir_text data hlen (cstr "B2F") (by decide) (by decide) (by decide)
  have hs0 : ¬ ((s : Int) < 0) := by omega
  have hflags := fan_dir_flags s
  refine ⟨?_, ?_, ?_⟩
  · intro hbits
    obtain ⟨hb1, hb2⟩ := hflags.1 hbits
    unfold pddf_get_custom_psu_fan_direction
    rw [hname]
    simp only [hstatus, if_false, htest, Bool.false_eq_true, pddf_psu_read_byte, hs, hs0,
      Int.toNat_ofNat, hb1, hb2, ne_eq, not_true_eq_false, not_false_eq_true, if_true, hF]
    rfl
  · intro hbits
    have hb1 := hflags.2.1 hbits
    unfold pddf_get_custom_psu_fan_direction
    rw [hname]
    simp only [hstatus, if_false, htest, Bool.false_eq_true, pddf_psu_read_byte, hs, hs0,
      Int.toNat_ofNat, hb1, ne_eq, not_false_eq_true, if_true, hB]
    rfl
  · obtain ⟨new, htr, hreq⟩ := read_model_name_trace bus tr stack
    rw [hname] at htr
    exact ⟨new, htr, hreq⟩

theorem fan_direction_status_bits_witness :
    pddf_get_custom_psu_fan_direction (devFan 0x10) [] stackAA =
        (ShowResult.output (cstr "F2B\n"), [Req.block 0x9a 1, Req.block 0x9a 6, Req.byte 0xC3]) ∧
      pddf_get_custom_psu_fan_direction (devFan 0x08) [] stackAA =
        (ShowResult.output (cstr "B2F\n"), [Req.block 0x9a 1, Req.block 0x9a 6, Req.byte 0xC3]) :=
  ⟨(fan_direction_status_bits (devFan 0x10) [] stackAA
      (read_model_name (devFan 0x10) [] stackAA).1 (read_model_name (devFan 0x10) [] stackAA).2.1
      (read_model_name (devFan 0x10) [] stackAA).2.2.1 [Req.block 0x9a 1, Req.block 0x9a 6] 0x10
      rfl (by decide) (by decide) rfl).1 (by decide),
    (fan_direction_status_bits (devFan 0x08) [] stackAA
      (read_model_name (devFan 0x08) [] stackAA).1 (read_model_name (devFan 0x08) [] stackAA).2.1
      (read_model_name (devFan 0x08) [] stackAA).2.2.1 [Req.block 0x9a 1, Req.block 0x9a 6] 0x08
      rfl (by decide) (by decide) rfl).2.1 (by decide)⟩

/-- C10. Fan-direction fallback for bits [4:3] = 00: when the model is not
G1441-0850WNB and bits [4:3] of the status byte are both 0, the handler reads a
4-byte block at register 0xC3 (between one and ten requests) and, when that read
succeeds, prints bytes 1..3 of the block, cut at the first NUL, and a newline. -/
theorem fan_direction_fallback (bus : Bus) (tr : List Req) (stack : Nat → Nat)
    (status : Int) (data_len : Nat) (data : List Nat) (tr1 : List Req) (s : Nat)
    (st : Int) (fan_dir : List Nat) (tr3 : List Req)
    (hname : read_model_name bus tr stack = (status, data_len, data, tr1))
    (hstatus : ¬ status < 0)
    (hlabel : ¬ cstr "G1441-0850WNB" <+: cstrAt data 1)
    (hs : bus.byte tr1 0xC3 = (s : Int))
    (hbits : (s >>> 3) &&& 0x3 = 0)
    (hread : pddf_psu_read_block bus (tr1 ++ [Req.byte 0xC3]) 0xC3 (fan_dir_init stack) 0 4 =
      (st, fan_dir, tr3)) :
    (pddf_get_custom_psu_fan_direction bus tr stack).2 = tr3 ∧
      (∃ k, 1 ≤ k ∧ k ≤ 10 ∧
        tr3 = tr1 ++ [Req.byte 0xC3] ++ List.replicate k (Req.block 0xC3 4)) ∧
      (st = 0 →
        (pddf_get_custom_psu_fan_direction bus tr stack).1 =
          ShowResult.output (((fan_dir.drop 1).take 3).takeWhile nonNul ++ cstr "\n")) := by
  obtain ⟨hlen, hnul⟩ := read_model_name_terminated bus tr stack status data_len data tr1
    hname hstatus
  have htest : strncmp_eq (cstr "G1441-0850WNB")
      ((memset data off_fan_dir 0 (MAX_FAN_DIR + 1)).drop (off_model_name + 1))
      (cstr "G1441-0850WNB").length = false :=
    Bool.eq_false_iff.2 (fun h => hlabel ((fan_dir_label_test data hlen hnul).1 h))
  have hs0 : ¬ ((s : Int) < 0) := by omega
  obtain ⟨hb1, hb2⟩ := (fan_dir_flags s).2.2.2 hbits
  have h54 : 5 - 1 = 4 := rfl
  have hq : pddf_get_custom_psu_fan_direction bus tr stack =
      (if st = 0 then
        (ShowResult.output (cstrAt ((writeAt (memset data off_fan_dir 0 (MAX_FAN_DIR + 1))
          off_fan_dir (strncpy_bytes (fan_dir.drop 1) (MAX_FAN_DIR + 1 - 1))).set
            (off_fan_dir + (MAX_FAN_DIR + 1 - 1)) 0) off_fan_dir ++ cstr "\n"), tr3)
      else
        (ShowResult.output (cstrAt (memset data off_fan_dir 0 (MAX_FAN_DIR + 1)) off_fan_dir ++
          cstr "\n"), tr3)) := by
    unfold pddf_get_custom_psu_fan_direction
    rw [hname]
    simp only [hstatus, if_false, htest, Bool.false_eq_true, pddf_psu_read_byte, hs, hs0,
      Int.toNat_ofNat, hb1, hb2, ne_eq, not_true_eq_false, h54, hread]
  refine ⟨?_, ?_, ?_⟩
  · rw [hq]; split_ifs <;> rfl
  · obtain ⟨k, hk1, hk10, hk⟩ := read_block_trace_count bus (tr1 ++ [Req.byte 0xC3]) 0xC3
      (fan_dir_init stack) 0 4
    rw [hread] at hk
    exact ⟨k, hk1, hk10, hk⟩
  · intro hst
    have hflt : ∀ b ∈ fan_dir.drop 1, b < 256 := by
      have h := read_block_loop_lt bus 0xC3 0 4 10 0 (fan_dir_init stack) (tr1 ++ [Req.byte 0xC3])
        (fan_dir_init_lt stack)
      have hread2 : pddf_psu_read_block_loop bus 0xC3 0 4 10 0 (fan_dir_init stack)
          (tr1 ++ [Req.byte 0xC3]) = (st, fan_dir, tr3) := hread
      rw [hread2] at h
      exact fun b hb => h b (List.mem_of_mem_drop hb)
    obtain ⟨hl, _⟩ := memset_fan_dir data hlen
    have h45 : off_fan_dir = 45 := rfl
    have h3 : MAX_FAN_DIR + 1 - 1 = 3 := rfl
    have hsl := strncpy_bytes_length (fan_dir.drop 1) 3
    rw [hq, if_pos hst, h3]
    generalize memset data off_fan_dir 0 (MAX_FAN_DIR + 1) = M at hl ⊢
    have hX : (writeAt M off_fan_dir (strncpy_bytes (fan_dir.drop 1) 3)).length = 49 := by
      rw [writeAt_length, hl]
    rw [cstrAt_set_nul _ off_fan_dir 3 (by rw [hX, h45]; decide),
      writeAt_eq _ _ _ (by rw [hsl, hl, h45]; decide), List.append_assoc,
      List.drop_left' (by rw [List.length_take, hl, h45]; rfl),
      List.take_left' (by rw [List.length_map, hsl]),
      strncpy_bytes_string _ _ hflt]

theorem fan_direction_fallback_witness :
    (pddf_get_custom_psu_fan_direction (devFan 0x04) [] stackAA).1 =
      ShowResult.output (cstr "ABC\n") :=
  ((fan_direction_fallback (devFan 0x04) [] stackAA
    (read_model_name (devFan 0x04) [] stackAA).1 (read_model_name (devFan 0x04) [] stackAA).2.1
    (read_model_name (devFan 0x04) [] stackAA).2.2.1
    (read_model_name (devFan 0x04) [] stackAA).2.2.2 0x04 0 (4 :: cstr "ABC" ++ [0xAA])
    [Req.block 0x9a 1, Req.block 0x9a 6, Req.byte 0xC3, Req.block 0xC3 4]
    rfl (by decide) (by decide) rfl (by decide) (by decide)).2.2 rfl).trans (by decide)

/-- C10 at bits [4:3] = 11. A supply that is not a G1441-0850WNB answers the byte read
at 0xC3 with 0x18, bits [4:3] = 11, and would answer a block read there with
`[4,'A','B','C']`: the handler prints "B2F\n", not "ABC\n", and requests no block at
0xC3, because bit 3 is tested before the pattern is looked at as a whole. -/
theorem fan_direction_fallback_counterexample :
    (0x18 >>> 3) &&& 0x3 = 0b11 ∧
      ¬ cstr "G1441-0850WNB" <+: cstrAt (read_model_name (devFan 0x18) [] stackAA).2.2.1 1 ∧
      (devFan 0x18).block [Req.block 0x9a 1, Req.block 0x9a 6, Req.byte 0xC3] 0xC3 4 =
        BlockResp.data (4 :: cstr "ABC") ∧
      pddf_get_custom_psu_fan_direction (devFan 0x18) [] stackAA =
        (ShowResult.output (cstr "B2F\n"), [Req.block 0x9a 1, Req.block 0x9a 6, Req.byte 0xC3]) ∧
      (pddf_get_custom_psu_fan_direction (devFan 0x18) [] stackAA).1 ≠
        ShowResult.output (cstr "ABC\n") ∧
      Req.block 0xC3 4 ∉ (pddf_get_custom_psu_fan_direction (devFan 0x18) [] stackAA).2 := by
  refine ⟨by decide, by decide, rfl, by decide, by decide, by decide⟩

/-! ## Model option -/

theorem writeAt_take_below (bytes : List Nat) (buf : List Nat) (off : Nat) :
    (writeAt buf off bytes).take off = buf.take off := by
  induction bytes generalizing buf off with
  | nil => rfl
  | cons b bs ih =>
    rw [writeAt]
    have h := congrArg (List.take off) (ih (buf.set off (b % 256)) (off + 1))
    rw [List.take_take, List.take_take, Nat.min_eq_left (Nat.le_succ off)] at h
    rw [h, take_set_of_le _ _ _ _ (le_refl off)]

theorem read_block_loop_take_below (bus : Bus) (command off data_len : Nat) (fuel : Nat)
    (result : Int) (buf : List Nat) (tr : List Req) :
    (pddf_psu_read_block_loop bus command off data_len fuel result buf tr).2.1.take off =
      buf.take off := by
  induction fuel generalizing result buf tr with
  | zero => rfl
  | succ k ih =>
    unfold pddf_psu_read_block_loop
    have hw : (i2c_smbus_read_i2c_block_data bus tr command data_len buf off).2.1.take off =
        buf.take off := by
      unfold i2c_smbus_read_i2c_block_data
      cases bus.block tr command data_len with
      | error e => rfl
      | data bytes => exact writeAt_take_below _ _ _
    rcases hcall : i2c_smbus_read_i2c_block_data bus tr command data_len buf off with ⟨r, b, t⟩
    rw [hcall] at hw
    simp only at hw ⊢
    split_ifs
    · rw [ih, hw]
    · rw [ih, hw]
    · exact hw

/-- A block read leaves the bytes below its destination as they were. -/
theorem read_block_take_below (bus : Bus) (tr : List Req) (command : Nat) (buf : List Nat)
    (off data_len : Nat) :
    (pddf_psu_read_block bus tr command buf off data_len).2.1.take off = buf.take off :=
  read_block_loop_take_below bus command off data_len 10 0 buf tr

/-- Two buffers that agree below `n` hold the same string at `off` when that string
ends below `n`. -/
theorem cstrAt_eq_of_take (a b : List Nat) (off k n : Nat) (h : a.take n = b.take n)
    (hk : b[k]? = some 0) (h1 : off ≤ k) (h2 : k < n) : cstrAt a off = cstrAt b off := by
  have hbk : (b.take n)[k]? = some 0 := by rw [List.getElem?_take_of_lt h2, hk]
  have hmem : 0 ∈ (b.take n).drop off := by
    rw [List.mem_iff_getElem?]
    refine ⟨k - off, ?_⟩
    rw [List.getElem?_drop, ← hbk]
    congr 1; omega
  have hoff : off ≤ (b.take n).length := by
    have := (List.getElem?_eq_some.1 hbk).1
    omega
  unfold cstrAt
  conv_lhs => rw [← List.take_append_drop n a, h, List.drop_append_of_le_length hoff,
    takeWhile_append_of_mem_nul _ _ hmem]
  conv_rhs => rw [← List.take_append_drop n b, List.drop_append_of_le_length hoff,
    takeWhile_append_of_mem_nul _ _ hmem]

/-- C11. Model-name suffix: after a successful framing with label `cstrAt data 1`,
(a) when the label starts with "YM-2851F" or "YM-2851J", the one-byte read at 0xd0
reports `m <= 6` and the read of `m + 1` bytes at 0xd0 returns `[b0, o1, ..., om]` with
no `oi` NUL, the handler prints the label, then `o1..om`, then a newline, and its
requests after the framing are block reads at 0xd0 of 1 and of `m + 1` bytes;
(b) when the label starts with neither, the handler prints the label and a newline
and requests nothing after the framing, whose requests are all at 0x9a: register
0xd0 is not read. -/
theorem model_name_suffix (bus : Bus) (tr : List Req) (stack : Nat → Nat)
    (status : Int) (data_len : Nat) (data : List Nat) (tr1 : List Req)
    (hname : read_model_name bus tr stack = (status, data_len, data, tr1))
    (hstatus : ¬ status < 0) :
    ((cstr "YM-2851F" <+: cstrAt data 1 ∨ cstr "YM-2851J" <+: cstrAt data 1) →
      ∀ (s1 : Int) (m : Nat) (tr2 : List Req) (s2 : Int) (data2 : List Nat) (tr3 : List Req)
        (b0 : Nat) (os : List Nat),
        pddf_psu_read_block bus tr1 0xd0 [data_len] 0 1 = (s1, [m], tr2) → ¬ s1 < 0 →
        m ≤ 6 →
        pddf_psu_read_block bus tr2 0xd0 data off_model_opt (m + 1) = (s2, data2, tr3) →
        ¬ s2 < 0 →
        (data2.drop off_model_opt).take (m + 1) = b0 :: os → (∀ c ∈ os, c ≠ 0) →
        pddf_get_custom_psu_model_name bus tr stack =
          (ShowResult.output (cstrAt data 1 ++ os ++ cstr "\n"), tr3) ∧
        ∃ k1 k2, 1 ≤ k1 ∧ 1 ≤ k2 ∧
          tr3 = tr1 ++ List.replicate k1 (Req.block 0xd0 1) ++
            List.replicate k2 (Req.block 0xd0 (m + 1))) ∧
    ((¬ cstr "YM-2851F" <+: cstrAt data 1 ∧ ¬ cstr "YM-2851J" <+: cstrAt data 1) →
      pddf_get_custom_psu_model_name bus tr stack =
        (ShowResult.output (cstrAt data 1 ++ cstr "\n"), tr1) ∧
      ∃ new, tr1 = tr ++ new ∧ (∀ r ∈ new, ∃ len, r = Req.block 0x9a len) ∧
        ∀ r ∈ new, r.command ≠ 0xd0) := by
  obtain ⟨hlen, k, hk1, hk16, hk⟩ := read_model_name_terminated bus tr stack status data_len
    data tr1 hname hstatus
  have h01 : off_model_name + 1 = 1 := rfl
  have h37 : off_model_opt = 37 := rfl
  have eF := strncmp_eq_iff_starts _ cstr_labels_nonNul.2.2.2 (data.drop 1)
  have eJ := strncmp_eq_iff_starts _ cstr_labels_nonNul.2.1 (data.drop 1)
  constructor
  · intro hlabel s1 m tr2 s2 data2 tr3 b0 os hr1 hs1 hm6 hr2 hs2 hbytes hnul
    have hcond : (strncmp_eq (cstr "YM-2851F") (data.drop 1) (cstr "YM-2851F").length ||
        strncmp_eq (cstr "YM-2851J") (data.drop 1) (cstr "YM-2851J").length) = true := by
      rcases hlabel with h | h
      · rw [eF.2 h]; rfl
      · rw [eJ.2 h, Bool.or_true]
    have hl2 : data2.length = 49 := by
      have := read_block_length bus tr2 0xd0 data off_model_opt (m + 1)
      rw [hr2] at this
      rw [this, hlen]
    have htake : data2.take off_model_opt = data.take off_model_opt := by
      have := read_block_take_below bus tr2 0xd0 data off_model_opt (m + 1)
      rw [hr2] at this
      exact this
    have hlabel2 : cstrAt (data2.set (off_model_opt + (m + 1)) 0) 1 = cstrAt data 1 := by
      apply cstrAt_eq_of_take _ _ 1 k off_model_opt _ hk hk1 (by rw [h37]; omega)
      rw [take_set_of_le _ _ _ _ (by omega), htake]
    have hopt : cstrAt (data2.set (off_model_opt + (m + 1)) 0) (off_model_opt + 1) = os := by
      have hidx : off_model_opt + (m + 1) = (off_model_opt + 1) + m := by omega
      rw [hidx, cstrAt_set_nul _ _ _ (by rw [hl2, h37]; omega), ← List.drop_drop,
        List.take_drop, Nat.add_comm 1 m, hbytes, List.drop_succ_cons, List.drop_zero,
        takeWhile_nonNul_of_all os hnul]
    constructor
    · unfold pddf_get_custom_psu_model_name
      rw [hname]
      simp only [hstatus, if_false, h01, hcond, if_true, hr1, hs1, List.headD_cons, hr2, hs2,
        hopt, hlabel2]
    · obtain ⟨k1, hk1a, _, e1⟩ := read_block_trace_count bus tr1 0xd0 [data_len] 0 1
      obtain ⟨k2, hk2a, _, e2⟩ := read_block_trace_count bus tr2 0xd0 data off_model_opt (m + 1)
      rw [hr1] at e1
      rw [hr2] at e2
      simp only at e1 e2
      exact ⟨k1, k2, hk1a, hk2a, by rw [e2, e1]⟩
  · intro hlabel
    have fF : strncmp_eq (cstr "YM-2851F") (data.drop 1) (cstr "YM-2851F").length = false :=
      Bool.eq_false_iff.2 (fun h => hlabel.1 (eF.1 h))
    have fJ : strncmp_eq (cstr "YM-2851J") (data.drop 1) (cstr "YM-2851J").length = false :=
      Bool.eq_false_iff.2 (fun h => hlabel.2 (eJ.1 h))
    constructor
    · unfold pddf_get_custom_psu_model_name
      rw [hname]
      simp only [hstatus, if_false, h01, fF, fJ, Bool.or_self, Bool.false_eq_true]
    · obtain ⟨new, htr, hreq⟩ := read_model_name_trace bus tr stack
      rw [hname] at htr
      refine ⟨new, htr, hreq, ?_⟩
      intro r hr
      obtain ⟨len, hl⟩ := hreq r hr
      rw [hl]
      exact (by decide : (0x9a : Nat) ≠ 0xd0)

theorem model_name_suffix_witness :
    pddf_get_custom_psu_model_name (devYMopt (3 :: cstr "-AC")) [] stackAA =
        (ShowResult.output (cstr "YM-2851F-AC\n"),
          [Req.block 0x9a 1, Req.block 0x9a 9, Req.block 0xd0 1, Req.block 0xd0 4]) ∧
      pddf_get_custom_psu_model_name devHello [] stackAA =
        (ShowResult.output (cstr "HELLO\n"), [Req.block 0x9a 1, Req.block 0x9a 6]) :=
  ⟨(((model_name_suffix (devYMopt (3 :: cstr "-AC")) [] stackAA
      (read_model_name (devYMopt (3 :: cstr "-AC")) [] stackAA).1
      (read_model_name (devYMopt (3 :: cstr "-AC")) [] stackAA).2.1
      (read_model_name (devYMopt (3 :: cstr "-AC")) [] stackAA).2.2.1
      [Req.block 0x9a 1, Req.block 0x9a 9] rfl (by decide)).1 (by decide) 0 3
      [Req.block 0x9a 1, Req.block 0x9a 9, Req.block 0xd0 1] 0
      (pddf_psu_read_block (devYMopt (3 :: cstr "-AC"))
        [Req.block 0x9a 1, Req.block 0x9a 9, Req.block 0xd0 1] 0xd0
        (read_model_name (devYMopt (3 :: cstr "-AC")) [] stackAA).2.2.1 off_model_opt 4).2.1
      [Req.block 0x9a 1, Req.block 0x9a 9, Req.block 0xd0 1, Req.block 0xd0 4]
      3 (cstr "-AC") rfl (by decide) (by decide) rfl (by decide) (by decide)
      (by decide)).1).trans (by decide),
    (((model_name_suffix devHello [] stackAA
      (read_model_name devHello [] stackAA).1 (read_model_name devHello [] stackAA).2.1
      (read_model_name devHello [] stackAA).2.2.1 [Req.block 0x9a 1, Req.block 0x9a 6]
      rfl (by decide)).2 (by decide)).1).trans (by decide)⟩

/-! ## Retry ceiling of the block read -/

theorem i2c_block_ret (bus : Bus) (tr : List Req) (command len : Nat) (buf : List Nat)
    (off : Nat) :
    (i2c_smbus_read_i2c_block_data bus tr command len buf off).1 =
      (bus.block tr command len).ret := by
  unfold i2c_smbus_read_i2c_block_data
  cases bus.block tr command len <;> rfl

theorem append_replicate_succ (tr : List Req) (r : Req) (i : Nat) :
    tr ++ [r] ++ List.replicate i r = tr ++ List.replicate (i + 1) r := by
  rw [List.append_assoc, List.replicate_succ]; rfl

/-- The loop stops with 0 at the first attempt that returns `data_len`. -/
theorem read_block_loop_success (bus : Bus) (command off data_len : Nat) (fuel : Nat) :
    ∀ (j : Nat) (result : Int) (buf : List Nat) (tr : List Req), j < fuel →
      (∀ i, i < j →
        (bus.block (tr ++ List.replicate i (Req.block command data_len)) command data_len).ret ≠
          (data_len : Int)) →
      (bus.block (tr ++ List.replicate j (Req.block command data_len)) command data_len).ret =
        (data_len : Int) →
      (pddf_psu_read_block_loop bus command off data_len fuel result buf tr).1 = 0 ∧
      (pddf_psu_read_block_loop bus command off data_len fuel result buf tr).2.2 =
        tr ++ List.replicate (j + 1) (Req.block command data_len) := by
  induction fuel with
  | zero => intro j _ _ _ hj; omega
  | succ f ih =>
    intro j result buf tr hj hfail hok
    unfold pddf_psu_read_block_loop
    have hret := i2c_block_ret bus tr command data_len buf off
    have htr := i2c_block_trace bus tr command data_len buf off
    rcases hcall : i2c_smbus_read_i2c_block_data bus tr command data_len buf off with ⟨r, b, t⟩
    rw [hcall] at hret htr
    simp only at hret htr ⊢
    subst htr
    cases j with
    | zero =>
      rw [List.replicate_zero, List.append_nil, ← hret] at hok
      have h1 : ¬ r < 0 := by omega
      have h2 : ¬ r ≠ (data_len : Int) := by omega
      rw [if_neg h1, if_neg h2]
      exact ⟨rfl, rfl⟩
    | succ j =>
      have h0 := hfail 0 (by omega)
      rw [List.replicate_zero, List.append_nil, ← hret] at h0
      have hfail2 : ∀ i, i < j →
          (bus.block (tr ++ [Req.block command data_len] ++
            List.replicate i (Req.block command data_len)) command data_len).ret ≠
            (data_len : Int) := by
        intro i hi
        rw [append_replicate_succ]
        exact hfail (i + 1) (by omega)
      have hok2 : (bus.block (tr ++ [Req.block command data_len] ++
          List.replicate j (Req.block command data_len)) command data_len).ret =
          (data_len : Int) := by
        rw [append_replicate_succ]; exact hok
      split_ifs with h1
      · obtain ⟨e1, e2⟩ := ih j r b _ (by omega) hfail2 hok2
        exact ⟨e1, by rw [e2, append_replicate_succ]⟩
      · obtain ⟨e1, e2⟩ := ih j (- EIO) b _ (by omega) hfail2 hok2
        exact ⟨e1, by rw [e2, append_replicate_succ]⟩

/-- The loop ends with a negative status after `fuel` attempts that all fail. -/
theorem read_block_loop_failure (bus : Bus) (command off data_len : Nat) (fuel : Nat) :
    ∀ (result : Int) (buf : List Nat) (tr : List Req), (result < 0 ∨ 0 < fuel) →
      (∀ i, i < fuel →
        (bus.block (tr ++ List.replicate i (Req.block command data_len)) command data_len).ret ≠
          (data_len : Int)) →
      (pddf_psu_read_block_loop bus command off data_len fuel result buf tr).1 < 0 ∧
      (pddf_psu_read_block_loop bus command off data_len fuel result buf tr).2.2 =
        tr ++ List.replicate fuel (Req.block command data_len) := by
  induction fuel with
  | zero =>
    intro result buf tr hres _
    rcases hres with h | h
    · exact ⟨h, by simp [pddf_psu_read_block_loop]⟩
    · omega
  | succ f ih =>
    intro result buf tr _ hfail
    unfold pddf_psu_read_block_loop
    have hret := i2c_block_ret bus tr command data_len buf off
    have htr := i2c_block_trace bus tr command data_len buf off
    rcases hcall : i2c_smbus_read_i2c_block_data bus tr command data_len buf off with ⟨r, b, t⟩
    rw [hcall] at hret htr
    simp only at hret htr ⊢
    subst htr
    have h0 := hfail 0 (by omega)
    rw [List.replicate_zero, List.append_nil, ← hret] at h0
    have hfail2 : ∀ i, i < f →
        (bus.block (tr ++ [Req.block command data_len] ++
          List.replicate i (Req.block command data_len)) command data_len).ret ≠
          (data_len : Int) := by
      intro i hi
      rw [append_replicate_succ]
      exact hfail (i + 1) (by omega)
    split_ifs with h1
    · obtain ⟨e1, e2⟩ := ih r b _ (Or.inl h1) hfail2
      exact ⟨e1, by rw [e2, append_replicate_succ]⟩
    · obtain ⟨e1, e2⟩ := ih (- EIO) b _ (Or.inl (by decide)) hfail2
      exact ⟨e1, by rw [e2, append_replicate_succ]⟩

/-- C12. Block-read retry ceiling: for every bus, `pddf_psu_read_block` makes between
one and ten attempts; it stops at the first attempt whose return value is `data_len`
and then returns 0; when all ten attempts fail (a negative return value or a byte
count other than `data_len`) it returns a negative status after exactly ten
attempts.  So nine failures followed by a success give 0 (the case `j = 9`), and ten
failures give an error. -/
theorem read_block_retry_ceiling (bus : Bus) (tr : List Req) (command : Nat)
    (buf : List Nat) (off data_len : Nat) :
    (∃ k, 1 ≤ k ∧ k ≤ 10 ∧ (pddf_psu_read_block bus tr command buf off data_len).2.2 =
      tr ++ List.replicate k (Req.block command data_len)) ∧
    (∀ j, j < 10 →
      (∀ i, i < j →
        (bus.block (tr ++ List.replicate i (Req.block command data_len)) command data_len).ret ≠
          (data_len : Int)) →
      (bus.block (tr ++ List.replicate j (Req.block command data_len)) command data_len).ret =
        (data_len : Int) →
      (pddf_psu_read_block bus tr command buf off data_len).1 = 0 ∧
      (pddf_psu_read_block bus tr command buf off data_len).2.2 =
        tr ++ List.replicate (j + 1) (Req.block command data_len)) ∧
    ((∀ i, i < 10 →
        (bus.block (tr ++ List.replicate i (Req.block command data_len)) command data_len).ret ≠
          (data_len : Int)) →
      (pddf_psu_read_block bus tr command buf off data_len).1 < 0 ∧
      (pddf_psu_read_block bus tr command buf off data_len).2.2 =
        tr ++ List.replicate 10 (Req.block command data_len)) :=
  ⟨read_block_trace_count bus tr command buf off data_len,
    fun j hj hfail hok =>
      read_block_loop_success bus command off data_len 10 j 0 buf tr hj hfail hok,
    fun hfail =>
      read_block_loop_failure bus command off data_len 10 0 buf tr
        (Or.inr (by decide)) hfail⟩

theorem read_block_retry_ceiling_witness :
    ((pddf_psu_read_block devNinth [] 0x9a [0] 0 1).1 = 0 ∧
        (pddf_psu_read_block devNinth [] 0x9a [0] 0 1).2.2 =
          [] ++ List.replicate (9 + 1) (Req.block 0x9a 1)) ∧
      ((pddf_psu_read_block devFanFail [] 0xC3 [0] 0 1).1 < 0 ∧
        (pddf_psu_read_block devFanFail [] 0xC3 [0] 0 1).2.2 =
          [] ++ List.replicate 10 (Req.block 0xC3 1)) :=
  ⟨(read_block_retry_ceiling devNinth [] 0x9a [0] 0 1).2.1 9 (by decide) (by decide)
      (by decide),
    (read_block_retry_ceiling devFanFail [] 0xC3 [0] 0 1).2.2 (by decide)⟩

/-! ## Byte and word reads of the voltage handler -/

/-- C13. Every read fails with errno 5: `psu_get_v_out` returns 65531 and
`psu_get_vout_mode` returns 251, the error code reduced to the unsigned `status`,
not 0.  For every bus each function makes one read and returns its value reduced
modulo 65536 or 256. -/
theorem soft_fail_returns_truncated_errno :
    devFlaky.word [] 0x8b = -5 ∧ devFlaky.byte [] 0x20 = -5 ∧
      psu_get_v_out devFlaky [] = (65531, [Req.word 0x8b]) ∧
      psu_get_vout_mode devFlaky [] = (251, [Req.byte 0x20]) ∧
      (∀ (bus : Bus) (tr : List Req),
        psu_get_v_out bus tr = ((bus.word tr 0x8b % 65536).toNat, tr ++ [Req.word 0x8b])) ∧
      (∀ (bus : Bus) (tr : List Req),
        psu_get_vout_mode bus tr = ((bus.byte tr 0x20 % 256).toNat, tr ++ [Req.byte 0x20])) :=
  ⟨rfl, rfl, by decide, by decide, psu_get_v_out_eq, psu_get_vout_mode_eq⟩

/-- C14. The first read fails with errno 5 and the second would return 0x1234 (word)
or 0x17 (byte): `psu_get_v_out` returns 65531 and `psu_get_vout_mode` returns 251
after a single read; the second read is never made. -/
theorem byte_word_read_no_retry :
    devRetry.word [] 0x8b = -5 ∧ devRetry.word [Req.word 0x8b] 0x8b = 0x1234 ∧
      psu_get_v_out devRetry [] = (65531, [Req.word 0x8b]) ∧
      devRetry.byte [] 0x20 = -5 ∧ devRetry.byte [Req.byte 0x20] 0x20 = 0x17 ∧
      psu_get_vout_mode devRetry [] = (251, [Req.byte 0x20]) := by
  refine ⟨rfl, rfl, by decide, rfl, rfl, by decide⟩

/-! ## A failed fallback read in the fan-direction handler -/

/-- C15. The supply is not a G1441-0850WNB, its status byte is 0 and the 4-byte block
read at 0xC3 fails with -5 after ten attempts: the handler stores an empty line and
does not return the error.  A failure of either block read of the framing is
returned as the error. -/
theorem fan_direction_fallback_failure_prints_empty :
    (pddf_psu_read_block devFanFail [Req.block 0x9a 1, Req.block 0x9a 6, Req.byte 0xC3] 0xC3
        (fan_dir_init stackAA) 0 4).1 = -5 ∧
      pddf_get_custom_psu_fan_direction devFanFail [] stackAA =
        (ShowResult.output (cstr "\n"),
          [Req.block 0x9a 1, Req.block 0x9a 6, Req.byte 0xC3] ++
            List.replicate 10 (Req.block 0xC3 4)) ∧
      (∀ (bus : Bus) (tr : List Req) (stack : Nat → Nat),
        (read_model_name bus tr stack).1 < 0 →
          pddf_get_custom_psu_fan_direction bus tr stack =
            (ShowResult.error (read_model_name bus tr stack).1,
              (read_model_name bus tr stack).2.2.2)) := by
  refine ⟨by decide, by decide, ?_⟩
  intro bus tr stack h
  unfold pddf_get_custom_psu_fan_direction
  rcases hcall : read_model_name bus tr stack with ⟨st, dl, d, t⟩
  rw [hcall] at h
  simp only at h ⊢
  rw [if_pos h]

/-! ## Stores past the end of `model_opt` -/

/-- C16. The option register reports the length 10: the second read requests 11
bytes, the payload bytes of index 8, 9, 10 and the NUL of index 11 are stored past
the 8 bytes of `data.model_opt`, in `data.fan_dir`, and the handler prints an option
string of 10 characters. -/
theorem model_opt_not_clamped :
    pddf_get_custom_psu_model_name (devYMopt (10 :: cstr "0123456789")) [] stackAA =
        (ShowResult.output (cstr "YM-2851F0123456789\n"),
          [Req.block 0x9a 1, Req.block 0x9a 9, Req.block 0xd0 1, Req.block 0xd0 11]) ∧
      (read_model_name (devYMopt (10 :: cstr "0123456789")) [] stackAA).2.2.1.drop
        (off_model_opt + (MAX_MODEL_OPT + 1)) = [0xAA, 0xAA, 0xAA, 0xAA] ∧
      ((pddf_psu_read_block (devYMopt (10 :: cstr "0123456789"))
          [Req.block 0x9a 1, Req.block 0x9a 9, Req.block 0xd0 1] 0xd0
          (read_model_name (devYMopt (10 :: cstr "0123456789")) [] stackAA).2.2.1
          off_model_opt (10 + 1)).2.1.set (off_model_opt + (10 + 1)) 0).drop
        (off_model_opt + (MAX_MODEL_OPT + 1)) = cstr "789" ++ [0] ∧
      ¬ (10 + 1 < MAX_MODEL_OPT + 1) := by
  refine ⟨by decide, by decide, by decide, by decide⟩

/-! ## Scaling with a non-negative exponent -/

theorem v_out_format_nonneg (exponent mantissa : Int) (he : 0 ≤ exponent)
    (hlo : -2147483648 ≤ mantissa * 2 ^ exponent.toNat * 1000)
    (hhi : mantissa * 2 ^ exponent.toNat * 1000 < 2147483648) :
    v_out_format exponent mantissa =
      fmt_d (mantissa * 2 ^ exponent.toNat * 1000) ++ cstr "\n" := by
  unfold v_out_format
  rw [if_pos he]
  generalize mantissa * 2 ^ exponent.toNat = x at hlo hhi ⊢
  rw [wrap32_of_range x (by omega) (by omega), wrap32_of_range (x * 1000) hlo hhi]

/-- C17. Non-negative exponent scaling within 32 bits: in a voltage query (linear11
or linear16) whose decoded exponent `e` is non-negative and whose mantissa is `m`,
when `m * 2^e * 1000` lies in the range of a 32-bit signed `int` the handler prints
exactly that integer and a newline. -/
theorem v_out_nonneg_exponent (bus : Bus) (tr : List Req) (stack : Nat → Nat)
    (status : Int) (data_len : Nat) (data : List Nat) (tr1 : List Req) (w : Nat)
    (tr2 : List Req) (e m : Int) (tr3 : List Req)
    (hname : read_model_name bus tr stack = (status, data_len, data, tr1))
    (hstatus : ¬ status < 0)
    (hw : psu_get_v_out bus tr1 = (w, tr2))
    (hlin : v_out_linear bus tr2 data w = (e, m, tr3))
    (he : 0 ≤ e)
    (hlo : -2147483648 ≤ m * 2 ^ e.toNat * 1000)
    (hhi : m * 2 ^ e.toNat * 1000 < 2147483648) :
    pddf_show_custom_psu_v_out bus tr stack =
      (ShowResult.output (fmt_d (m * 2 ^ e.toNat * 1000) ++ cstr "\n"), tr3) := by
  unfold pddf_show_custom_psu_v_out
  rw [hname]
  simp only [hstatus, if_false, hw, hlin]
  rw [v_out_format_nonneg e m he hlo hhi]

theorem v_out_nonneg_exponent_witness :
    pddf_show_custom_psu_v_out (devWord 0x0801) [] stackAA =
      (ShowResult.output (cstr "2000\n"),
        [Req.block 0x9a 1, Req.block 0x9a 6, Req.word 0x8b]) :=
  (v_out_nonneg_exponent (devWord 0x0801) [] stackAA
    (read_model_name (devWord 0x0801) [] stackAA).1
    (read_model_name (devWord 0x0801) [] stackAA).2.1
    (read_model_name (devWord 0x0801) [] stackAA).2.2.1
    [Req.block 0x9a 1, Req.block 0x9a 6] 0x0801
    [Req.block 0x9a 1, Req.block 0x9a 6, Req.word 0x8b] 1 1
    [Req.block 0x9a 1, Req.block 0x9a 6, Req.word 0x8b]
    rfl (by decide) rfl (by decide) (by decide) (by decide) (by decide)).trans (by decide)

/-- C17 at the VOUT word 0x7BFF. A linear11 supply reports exponent 15 and mantissa
1023: the exact value 1023 * 2^15 * 1000 = 33521664000 does not fit in 32 bits and
the handler prints -838074368. -/
theorem v_out_nonneg_exponent_counterexample :
    v_out_linear (devWord 0x7BFF) [Req.block 0x9a 1, Req.block 0x9a 6, Req.word 0x8b]
        (read_model_name (devWord 0x7BFF) [] stackAA).2.2.1 0x7BFF =
        (15, 1023, [Req.block 0x9a 1, Req.block 0x9a 6, Req.word 0x8b]) ∧
      (pddf_show_custom_psu_v_out (devWord 0x7BFF) [] stackAA).1 =
        ShowResult.output (fmt_d (-838074368) ++ cstr "\n") ∧
      (1023 : Int) * 2 ^ 15 * 1000 = 33521664000 ∧
      (pddf_show_custom_psu_v_out (devWord 0x7BFF) [] stackAA).1 ≠
        ShowResult.output (fmt_d ((1023 : Int) * 2 ^ 15 * 1000) ++ cstr "\n") := by
  refine ⟨by decide, by decide, by decide, by decide⟩

/-! ## Stores past the end of `model_name` -/

/-- C18. The model-name register reports the length 20: the second read requests 21
bytes, more than the 17 bytes of `data.model_name`, and the payload bytes of index
17..20 are stored in `data.serial_number`. -/
theorem model_name_read_not_clamped :
    (read_model_name devLong [] stackAA).2.2.2 = [Req.block 0x9a 1, Req.block 0x9a 21] ∧
      ¬ (21 ≤ MAX_MODEL_NAME + 1) ∧
      ((pddf_psu_data_init stackAA).drop off_serial_number).take 4 =
        [0xAA, 0xAA, 0xAA, 0xAA] ∧
      ((read_model_name devLong [] stackAA).2.2.1.drop off_serial_number).take 4 =
        cstr "QRST" := by
  refine ⟨by decide, by decide, by decide, by decide⟩

/-! ## Terminator of the model name -/

/-- C19. Model-name terminator clamp: when both block reads of the framing succeed,
with `n` the reported length and `data` the struct after the second read, the
framing stores the NUL at index `min (n + 1) 16` of `data.model_name`: at `n + 1`
when `n + 1 < 16`, at 16, the last index of the 17-byte member, otherwise; the index
is never out of bounds.  The voltage, model-name and fan-direction handlers all run
this framing. -/
theorem model_name_terminator_index (bus : Bus) (tr : List Req) (stack : Nat → Nat)
    (s1 : Int) (tr1 : List Req) (n : Nat) (s2 : Int) (data : List Nat) (tr2 : List Req)
    (h1 : pddf_psu_read_block bus tr 0x9a [data_len_init stack] 0 1 = (s1, [n], tr1))
    (hs1 : ¬ s1 < 0)
    (h2 : pddf_psu_read_block bus tr1 0x9a
      (memset (pddf_psu_data_init stack) off_model_name 0 (MAX_MODEL_NAME + 1))
      off_model_name (n + 1) = (s2, data, tr2))
    (hs2 : ¬ s2 < 0) :
    read_model_name bus tr stack =
        (s2, n, data.set (off_model_name + min (n + 1) 16) 0, tr2) ∧
      min (n + 1) 16 < MAX_MODEL_NAME + 1 ∧
      (n + 1 < 16 → min (n + 1) 16 = n + 1) ∧
      (16 ≤ n + 1 → min (n + 1) 16 = 16) ∧
      (data.set (off_model_name + min (n + 1) 16) 0)[off_model_name + min (n + 1) 16]? =
        some 0 := by
  have hlen : data.length = 49 := by
    have := read_block_length bus tr1 0x9a
      (memset (pddf_psu_data_init stack) off_model_name 0 (MAX_MODEL_NAME + 1))
      off_model_name (n + 1)
    rw [h2, memset_length, pddf_psu_data_init_length] at this
    exact this
  have h17 : MAX_MODEL_NAME + 1 = 17 := rfl
  have h0 : off_model_name = 0 := rfl
  refine ⟨?_, by rw [h17]; omega, by omega, by omega, ?_⟩
  · unfold read_model_name
    simp only [h1, hs1, if_false, List.headD_cons, h2, hs2]
    have e3 : MAX_MODEL_NAME + 1 - 1 = 16 := rfl
    rw [e3]
    split_ifs with h
    · rw [Nat.min_eq_right h]
    · rw [Nat.min_eq_left (by omega)]
  · rw [List.getElem?_set_self (by rw [hlen, h0]; omega)]

theorem model_name_terminator_index_witness :
    read_model_name devLong [] stackAA =
      (0, 20, (pddf_psu_read_block devLong [Req.block 0x9a 1] 0x9a
        (memset (pddf_psu_data_init stackAA) off_model_name 0 (MAX_MODEL_NAME + 1))
        off_model_name 21).2.1.set (off_model_name + min (20 + 1) 16) 0,
        [Req.block 0x9a 1, Req.block 0x9a 21]) :=
  (model_name_terminator_index devLong [] stackAA 0 [Req.block 0x9a 1] 20 0 _ _ rfl
    (by decide) rfl (by decide)).1

/-! ## `chk_length` and `length` in the model table -/

/-- C20. Compared length in the model table: `chk_length` is the length of the label
for each of the five entries and never exceeds `length`; it equals `length` for the
entries D850AB-5 A, D850AB-5 B and G1441-0850WNB (10, 10, 13), and is 8 of the 13
bytes read for YM-2851F and YM-2851J.  For every entry the comparison made by the
loop holds exactly when the first `chk_length` bytes read are the label. -/
theorem models_chk_length :
    models.map (fun m => (m.length, m.chk_length, (cstr m.model_name).length)) =
        [(10, 10, 10), (10, 10, 10), (13, 8, 8), (13, 8, 8), (13, 13, 13)] ∧
      (∀ m ∈ models, m.chk_length = (cstr m.model_name).length ∧ m.chk_length ≤ m.length) ∧
      (∀ m ∈ models, ∀ d : List Nat,
        strncmp_eq ((d.set (off_model_name + m.length) 0).drop off_model_name)
            (cstr m.model_name) m.chk_length = true ↔
          d.take m.chk_length = cstr m.model_name) :=
  ⟨by decide, by decide, fun m hm d => probe_compare m (models_labelChecked m hm) d⟩

/-- C20 at the entries YM-2851F and YM-2851J: 13 bytes are read and 8 are compared, so
a model field "YM-2851F-0123" that differs from the label after its 8th byte is still
matched and its serial number is printed. -/
theorem models_chk_length_counterexample :
    ¬ (∀ m ∈ models, m.chk_length = m.length) ∧
      models[2]? = some ⟨psu_type.PSU_TYPE_AC_YM2851F, 0x20, 13, 8, "YM-2851F"⟩ ∧
      (devYM.block [Req.block 0x15 10, Req.block 0x15 10] 0x20 13).ret = 13 ∧
      (pddf_get_custom_psu_serial_num devYM [] stackAA).1 =
        ShowResult.output (cstr "SN0123456789ABCDEFG\n") := by
  refine ⟨by decide, rfl, by decide, by decide⟩

end PddfCustomPsu
